import Mathlib

set_option maxHeartbeats 1000000

namespace SwiftGen

/-! Shallow embedding of `src/idl_gen_swift.cpp`: the schema data model the
generator consumes and the generator's rendering functions.  Machine strings
are Lean `String`s, the C++ `abort()` error path is `Option.none`, and the
two `CodeWriter` streams are explicit lists of emitted chunks. -/

/-- ASCII upper-casing, mirroring the generator's `ToUpper` wrapper over
`::toupper`. -/
def toUpperChar (c : Char) : Char := c.toUpper

/-- ASCII lower-casing, mirroring the generator's `ToLower` wrapper over
`::tolower`. -/
def toLowerChar (c : Char) : Char := c.toLower

/-- The `is_alnum` from the flatbuffers util helpers: ASCII letter or digit. -/
def isAlnumChar (c : Char) : Bool := c.isAlpha || c.isDigit

/-- The keyword table installed in the `SwiftGenerator` constructor. -/
def keywords : List String :=
  ["alignas", "alignof", "and", "and_eq", "asm", "atomic_cancel",
   "atomic_commit", "atomic_noexcept", "auto", "bitand", "bitor", "bool",
   "break", "case", "catch", "char", "char16_t", "char32_t", "class",
   "compl", "concept", "const", "constexpr", "const_cast", "continue",
   "co_await", "co_return", "co_yield", "decltype", "default", "delete",
   "do", "double", "dynamic_cast", "else", "enum", "explicit", "export",
   "extern", "false", "float", "for", "friend", "goto", "if", "import",
   "inline", "int", "long", "module", "mutable", "namespace", "new",
   "noexcept", "not", "not_eq", "nullptr", "operator", "or", "or_eq",
   "private", "protected", "public", "register", "reinterpret_cast",
   "requires", "return", "short", "signed", "sizeof", "static",
   "static_assert", "static_cast", "struct", "switch", "synchronized",
   "template", "this", "thread_local", "throw", "true", "try", "typedef",
   "typeid", "typename", "union", "unsigned", "using", "virtual", "void",
   "volatile", "wchar_t", "while", "xor", "xor_eq"]

/-- The `EscapeKeyword`: append an underscore when the name is in the keyword
set. -/
def escapeKeyword (nm : String) : String :=
  if keywords.contains nm then nm ++ "_" else nm

mutual

/-- The `Type` tagged union of the schema model (`Type.base_type` plus the
element type of a vector and the referenced `struct_def`).  In the C++ model
the vector element and the struct reference are separate fields; here the
vector constructor carries its element type and the struct constructor
carries the referenced definition. -/
inductive CType where
  | tNone
  | tUtype
  | tBool
  | tChar
  | tUchar
  | tShort
  | tUshort
  | tInt
  | tUint
  | tLong
  | tUlong
  | tFloat
  | tDouble
  | tString
  | tVector (element : CType)
  | tStruct (sd : StructDef)
  | tUnion
  | tArray

/-- The `FieldDef`: name, declared type, `deprecated` and `key` flags and the
documentation comment lines. -/
inductive FieldDef where
  | mk (name : String) (ty : CType) (deprecated : Bool) (key : Bool)
      (docComment : List String)

/-- The `StructDef`: name, owning namespace components, the `fixed`, `has_key`
and `generated` flags, the ordered field list and the documentation
comment. -/
inductive StructDef where
  | mk (name : String) (definedNamespace : List String) (fixed : Bool)
      (hasKey : Bool) (generated : Bool) (fields : List FieldDef)
      (docComment : List String)

end

def FieldDef.name : FieldDef → String
  | .mk n _ _ _ _ => n

def FieldDef.ty : FieldDef → CType
  | .mk _ t _ _ _ => t

def FieldDef.deprecated : FieldDef → Bool
  | .mk _ _ d _ _ => d

def FieldDef.key : FieldDef → Bool
  | .mk _ _ _ k _ => k

def FieldDef.docComment : FieldDef → List String
  | .mk _ _ _ _ dc => dc

def StructDef.name : StructDef → String
  | .mk n _ _ _ _ _ _ => n

def StructDef.definedNamespace : StructDef → List String
  | .mk _ ns _ _ _ _ _ => ns

def StructDef.fixed : StructDef → Bool
  | .mk _ _ f _ _ _ _ => f

def StructDef.hasKey : StructDef → Bool
  | .mk _ _ _ k _ _ _ => k

def StructDef.generated : StructDef → Bool
  | .mk _ _ _ _ g _ _ => g

def StructDef.fields : StructDef → List FieldDef
  | .mk _ _ _ _ _ fs _ => fs

def StructDef.docComment : StructDef → List String
  | .mk _ _ _ _ _ _ dc => dc

/-- The `Parser`: the schema root owning the struct list in declaration order,
the optional root struct and the included-files table. -/
structure Parser where
  structs : List StructDef
  rootStructDef : Option StructDef
  currentNamespace : List String
  includedFiles : List (String × String)

/-- The `Type::VectorType()`: the element type of a vector (base type `NONE`
for the non-vector constructors). -/
def vectorType : CType → CType
  | .tVector e => e
  | _ => .tNone

/-- The struct definition referenced by a type, when present.  Dereferencing
`struct_def` on a type that carries none is undefined behaviour in the
source; it is modelled as the error path. -/
def structDefOf : CType → Option StructDef
  | .tStruct sd => some sd
  | _ => none

/-- The `WrapInNameSpace(def)` of the shared `BaseGenerator`.  Modelled from the
spec: `code_generators.cpp` is not part of the excerpt; per section 3 a
namespace is an ordered sequence of name components with C++-style scope
resolution, and this generator is constructed with separator `::` and an
empty qualifying start. -/
def wrapInNameSpace (ns : List String) (nm : String) : String :=
  String.join (ns.map (fun c => c ++ "::")) ++ nm

/-- The `GenTypeInternal(const Definition &)`. -/
def genTypeInternalDef (sd : StructDef) : String := escapeKeyword sd.name

/-- The `Name(const Definition &)`. -/
def defName (sd : StructDef) : String := escapeKeyword sd.name

/-- The `Name` applied to a field definition. -/
def fieldName (f : FieldDef) : String := escapeKeyword f.name

/-- The `GenTypeInternal(const Type &)`; `abort()` on union and array. -/
def genTypeInternal : CType → Option String
  | .tNone => some "FlatBufferUInt8"
  | .tUtype => some "FlatBufferUInt8"
  | .tBool => some "FlatBufferBool"
  | .tChar => some "FlatBufferInt8"
  | .tUchar => some "FlatBufferUInt8"
  | .tShort => some "FlatBufferInt16"
  | .tUshort => some "FlatBufferUInt16"
  | .tInt => some "FlatBufferInt32"
  | .tUint => some "FlatBufferUInt32"
  | .tLong => some "FlatBufferInt64"
  | .tUlong => some "FlatBufferUInt64"
  | .tFloat => some "FlatBufferFloat"
  | .tDouble => some "FlatBufferDouble"
  | .tString => some "FlatBufferString"
  | .tVector e => (genTypeInternal e).map (fun s => s ++ "Array")
  | .tStruct sd => some (genTypeInternalDef sd)
  | .tUnion => none
  | .tArray => none

/-- The `GenTypeFlatbuffers(const Definition &)`. -/
def genTypeFlatbuffersDef (sd : StructDef) : String :=
  wrapInNameSpace sd.definedNamespace sd.name

/-- The `GenTypeFlatbuffersOffset(const Definition &)`. -/
def genTypeFlatbuffersOffsetDef (sd : StructDef) : String :=
  "flatbuffers::Offset<" ++ genTypeFlatbuffersDef sd ++ ">"

/-- The `GenTypeFlatbuffers` and `GenTypeFlatbuffersOffset` over types are
mutually recursive in the source: the offset rendering of a scalar is its
plain rendering, the offset rendering of a string or vector wraps the plain
rendering in `flatbuffers::Offset<...>`, and the plain rendering of a
vector wraps the offset rendering of its element in
`flatbuffers::Vector<...>`.  They are embedded as one structural function
returning the pair `(GenTypeFlatbuffers, GenTypeFlatbuffersOffset)` so that
both compute by kernel reduction; the lemmas
`genTypeFlatbuffers_eq_source` and `genTypeFlatbuffersOffset_eq_source`
below restate the two dispatch tables in the source's shape. -/
def genTypeFBPair : CType → Option String × Option String
  | .tNone => (some "uint8_t", some "uint8_t")
  | .tUtype => (some "uint8_t", some "uint8_t")
  | .tBool => (some "bool", some "bool")
  | .tChar => (some "int8_t", some "int8_t")
  | .tUchar => (some "uint8_t", some "uint8_t")
  | .tShort => (some "int16_t", some "int16_t")
  | .tUshort => (some "uint16_t", some "uint16_t")
  | .tInt => (some "int32_t", some "int32_t")
  | .tUint => (some "uint32_t", some "uint32_t")
  | .tLong => (some "int64_t", some "int64_t")
  | .tUlong => (some "uint64_t", some "uint64_t")
  | .tFloat => (some "float", some "float")
  | .tDouble => (some "double", some "double")
  | .tString =>
      (some "flatbuffers::String",
       some ("flatbuffers::Offset<" ++ "flatbuffers::String" ++ ">"))
  | .tVector e =>
      let fb :=
        (genTypeFBPair e).2.map (fun s => "flatbuffers::Vector<" ++ s ++ ">")
      (fb, fb.map (fun s => "flatbuffers::Offset<" ++ s ++ ">"))
  | .tStruct sd =>
      (some (genTypeFlatbuffersDef sd), some (genTypeFlatbuffersOffsetDef sd))
  | .tUnion => (none, none)
  | .tArray => (none, none)

/-- The `GenTypeFlatbuffers(const Type &)`; `abort()` on union and array. -/
def genTypeFlatbuffers (t : CType) : Option String := (genTypeFBPair t).1

/-- The `GenTypeFlatbuffersOffset(const Type &)`; `abort()` on union and
array. -/
def genTypeFlatbuffersOffset (t : CType) : Option String :=
  (genTypeFBPair t).2

/-- The `GenTypeFlatbuffers` dispatch, case for case as in the source. -/
theorem genTypeFlatbuffers_eq_source (t : CType) :
    genTypeFlatbuffers t =
      match t with
      | .tNone => some "uint8_t"
      | .tUtype => some "uint8_t"
      | .tBool => some "bool"
      | .tChar => some "int8_t"
      | .tUchar => some "uint8_t"
      | .tShort => some "int16_t"
      | .tUshort => some "uint16_t"
      | .tInt => some "int32_t"
      | .tUint => some "uint32_t"
      | .tLong => some "int64_t"
      | .tUlong => some "uint64_t"
      | .tFloat => some "float"
      | .tDouble => some "double"
      | .tString => some "flatbuffers::String"
      | .tVector e =>
          (genTypeFlatbuffersOffset e).map
            (fun s => "flatbuffers::Vector<" ++ s ++ ">")
      | .tStruct sd => some (genTypeFlatbuffersDef sd)
      | .tUnion => none
      | .tArray => none := by
  cases t <;> rfl

/-- The `GenTypeFlatbuffersOffset` dispatch, case for case as in the
source: scalars defer to `GenTypeFlatbuffers` of the same type, string and
vector wrap it in `flatbuffers::Offset<...>`, struct references defer to
the definition overload. -/
theorem genTypeFlatbuffersOffset_eq_source (t : CType) :
    genTypeFlatbuffersOffset t =
      match t with
      | .tNone => genTypeFlatbuffers .tNone
      | .tUtype => genTypeFlatbuffers .tUtype
      | .tBool => genTypeFlatbuffers .tBool
      | .tChar => genTypeFlatbuffers .tChar
      | .tUchar => genTypeFlatbuffers .tUchar
      | .tShort => genTypeFlatbuffers .tShort
      | .tUshort => genTypeFlatbuffers .tUshort
      | .tInt => genTypeFlatbuffers .tInt
      | .tUint => genTypeFlatbuffers .tUint
      | .tLong => genTypeFlatbuffers .tLong
      | .tUlong => genTypeFlatbuffers .tUlong
      | .tFloat => genTypeFlatbuffers .tFloat
      | .tDouble => genTypeFlatbuffers .tDouble
      | .tString =>
          (genTypeFlatbuffers .tString).map
            (fun s => "flatbuffers::Offset<" ++ s ++ ">")
      | .tVector e =>
          (genTypeFlatbuffers (.tVector e)).map
            (fun s => "flatbuffers::Offset<" ++ s ++ ">")
      | .tStruct sd => some (genTypeFlatbuffersOffsetDef sd)
      | .tUnion => none
      | .tArray => none := by
  cases t <;> rfl

/-- The `GenTypeOffset(const Definition &)`. -/
def genTypeOffsetDef (sd : StructDef) : String :=
  genTypeInternalDef sd ++ "Offset"

/-- The `GenTypeOffset(const Type &)`; `abort()` on scalars, union and array. -/
def genTypeOffset : CType → Option String
  | .tString => (genTypeInternal .tString).map (fun s => s ++ "Offset")
  | .tVector e =>
      (genTypeInternal (.tVector e)).map (fun s => s ++ "Offset")
  | .tStruct sd =>
      (genTypeInternal (.tStruct sd)).map (fun s => s ++ "Offset")
  | _ => none

/-- The `GenTypeRef(const Definition &)`. -/
def genTypeRefDef (sd : StructDef) : String := genTypeInternalDef sd ++ "Ref"

/-- The `GenTypeRef(const Type &)`; `abort()` on scalars, union and array. -/
def genTypeRef : CType → Option String
  | .tString => (genTypeInternal .tString).map (fun s => s ++ "Ref")
  | .tVector e => (genTypeInternal (.tVector e)).map (fun s => s ++ "Ref")
  | .tStruct sd => (genTypeInternal (.tStruct sd)).map (fun s => s ++ "Ref")
  | _ => none

/-- The `GenTypeForGet(const Definition &)`. -/
def genTypeForGetDef (sd : StructDef) : String := genTypeRefDef sd

/-- The `GenTypeForGet(const Type &)`; the struct case dereferences
`VectorType().struct_def`, which carries the same struct reference;
`abort()` on union and array. -/
def genTypeForGet : CType → Option String
  | .tNone => some "uint8_t"
  | .tUtype => some "uint8_t"
  | .tBool => some "bool"
  | .tChar => some "int8_t"
  | .tUchar => some "uint8_t"
  | .tShort => some "int16_t"
  | .tUshort => some "uint16_t"
  | .tInt => some "int32_t"
  | .tUint => some "uint32_t"
  | .tLong => some "int64_t"
  | .tUlong => some "uint64_t"
  | .tFloat => some "float"
  | .tDouble => some "double"
  | .tString => some "NSString *"
  | .tVector e => genTypeRef (.tVector e)
  | .tStruct sd => some (genTypeForGetDef sd)
  | .tUnion => none
  | .tArray => none

/-- The `GenTypeForSet(const StructDef &)`. -/
def genTypeForSetStruct (sd : StructDef) : String :=
  if sd.fixed then "const " ++ genTypeInternalDef sd ++ " *"
  else genTypeOffsetDef sd

/-- The `GenTypeForSet(const Type &)`; the struct case dereferences
`VectorType().struct_def`, which carries the same struct reference;
`abort()` on union and array. -/
def genTypeForSet : CType → Option String
  | .tNone => some "uint8_t"
  | .tUtype => some "uint8_t"
  | .tBool => some "bool"
  | .tChar => some "int8_t"
  | .tUchar => some "uint8_t"
  | .tShort => some "int16_t"
  | .tUshort => some "uint16_t"
  | .tInt => some "int32_t"
  | .tUint => some "uint32_t"
  | .tLong => some "int64_t"
  | .tUlong => some "uint64_t"
  | .tFloat => some "float"
  | .tDouble => some "double"
  | .tString => some "FlatBufferStringOffset"
  | .tVector e => genTypeOffset (.tVector e)
  | .tStruct sd => some (genTypeForSetStruct sd)
  | .tUnion => none
  | .tArray => none

/-- The `GenTypeForKey`; `abort()` on vector, struct, union and array. -/
def genTypeForKey : CType → Option String
  | .tNone => some "uint8_t"
  | .tUtype => some "uint8_t"
  | .tBool => some "bool"
  | .tChar => some "int8_t"
  | .tUchar => some "uint8_t"
  | .tShort => some "int16_t"
  | .tUshort => some "uint16_t"
  | .tInt => some "int32_t"
  | .tUint => some "uint32_t"
  | .tLong => some "int64_t"
  | .tUlong => some "uint64_t"
  | .tFloat => some "float"
  | .tDouble => some "double"
  | .tString => some "NSString *"
  | .tVector _ => none
  | .tStruct _ => none
  | .tUnion => none
  | .tArray => none

/-- The `GenTypeCastGet`; `abort()` on union and array. -/
def genTypeCastGet : CType → Option String
  | .tNone => some "value"
  | .tUtype => some "value"
  | .tBool => some "value"
  | .tChar => some "value"
  | .tUchar => some "value"
  | .tShort => some "value"
  | .tUshort => some "value"
  | .tInt => some "value"
  | .tUint => some "value"
  | .tLong => some "value"
  | .tUlong => some "value"
  | .tFloat => some "value"
  | .tDouble => some "value"
  | .tString =>
      some ("[[NSString alloc] initWithBytesNoCopy:const_cast<char *>" ++
        "(value->c_str()) length:value->Length() " ++
        "encoding:NSUTF8StringEncoding freeWhenDone:NO]")
  | .tVector _ => some "\x7b .buf = value \x7d"
  | .tStruct _ => some "\x7b .buf = value \x7d"
  | .tUnion => none
  | .tArray => none

/-- The `GenTypeCastKey`; `abort()` on vector, struct, union and array. -/
def genTypeCastKey : CType → Option String
  | .tNone => some "key"
  | .tUtype => some "key"
  | .tBool => some "key"
  | .tChar => some "key"
  | .tUchar => some "key"
  | .tShort => some "key"
  | .tUshort => some "key"
  | .tInt => some "key"
  | .tUint => some "key"
  | .tLong => some "key"
  | .tUlong => some "key"
  | .tFloat => some "key"
  | .tDouble => some "key"
  | .tString => some "key.UTF8String ?: \"\""
  | .tVector _ => none
  | .tStruct _ => none
  | .tUnion => none
  | .tArray => none

/-- Sets the first character of a string (`result[0] = c`). -/
def setFirstChar (s : String) (c : Char) : String :=
  match s.data with
  | [] => s
  | _ :: cs => String.mk (c :: cs)

/-- First character of a string. -/
def headChar (s : String) : Char :=
  match s.data with
  | [] => Char.ofNat 0
  | c :: _ => c

/-- The `SelectorComponentName`. -/
def selectorComponentName (nm : String) (first : Bool) : String :=
  let r := escapeKeyword nm
  if first then setFirstChar r (toUpperChar (headChar nm))
  else setFirstChar r (toLowerChar (headChar r))

/-- The `SelectorArgumentName`. -/
def selectorArgumentName (nm : String) : String :=
  let r := escapeKeyword nm
  setFirstChar r (toLowerChar (headChar r))

/-- The `TemporaryArgumentName`. -/
def temporaryArgumentName (nm : String) : String :=
  selectorArgumentName nm ++ "__"

/-- The `GenTypeCastSet`; `abort()` on union and array. -/
def genTypeCastSet (t : CType) (nm : String) : Option String :=
  match t with
  | .tNone => some (escapeKeyword nm)
  | .tUtype => some (escapeKeyword nm)
  | .tBool => some (escapeKeyword nm)
  | .tChar => some (escapeKeyword nm)
  | .tUchar => some (escapeKeyword nm)
  | .tShort => some (escapeKeyword nm)
  | .tUshort => some (escapeKeyword nm)
  | .tInt => some (escapeKeyword nm)
  | .tUint => some (escapeKeyword nm)
  | .tLong => some (escapeKeyword nm)
  | .tUlong => some (escapeKeyword nm)
  | .tFloat => some (escapeKeyword nm)
  | .tDouble => some (escapeKeyword nm)
  | .tString => some ("\x7b " ++ escapeKeyword nm ++ ".offset \x7d")
  | .tVector _ => some ("\x7b " ++ escapeKeyword nm ++ ".offset \x7d")
  | .tStruct sd =>
      if sd.fixed then
        some (selectorArgumentName nm ++ " ? &" ++
          temporaryArgumentName nm ++ " : nullptr")
      else
        some ("\x7b " ++ escapeKeyword nm ++ ".offset \x7d")
  | .tUnion => none
  | .tArray => none

/-- The `SwiftMakeRule`: the source computes the stripped file base and the
recursively included files but the rule-assembly statements are commented
out, so the function returns the empty string unconditionally. -/
def swiftMakeRule (_p : Parser) (_path _fileName : String) : String := ""

/-! ### The CodeWriter streams

`CodeWriter::operator+=` substitutes `\x7b\x7bKEY\x7d\x7d` template values
and appends the line plus a newline, except that a trailing backslash is
stripped and suppresses the newline.  The emitters below splice the
template values directly (each value is set immediately before use in the
source); the one pair of keys the source can read before setting them —
`KEY_TYPE`/`KEY_CAST` in `GenArrayFields` when the element struct has no
key field — is modelled by the persistent `KeyVals` record, which, like
`value_map_`, survives `CodeWriter::Clear()`.  A writer stream is the list
of appended chunks; the file content is their concatenation. -/

/-- One `+=` step: text plus newline, or text with a trailing backslash
stripped and no newline. -/
def emitChunk (t : String) : String :=
  if t.isEmpty then "\n"
  else if t.back == '\\' then t.dropRight 1
  else t ++ "\n"

/-- The shared `GenComment` text renderer (each doc line is emitted as
`pfx///line`).  Modelled from the spec: the renderer lives outside this
excerpt; a documentation comment is an ordered sequence of lines. -/
def genCommentText (dc : List String) (pfx : String) : String :=
  String.join (dc.map (fun ln => pfx ++ "///" ++ ln ++ "\n"))

/-- The `GenComment` appends the rendered comment followed by a backslash, so
the chunk is the raw comment text (empty for an empty comment). -/
def commentChunk (dc : List String) (pfx : String) : String :=
  emitChunk (genCommentText dc pfx ++ "\\")

/-- The persistent template values that can be read before being set. -/
structure KeyVals where
  hKeyType : String
  mmKeyType : String
  mmKeyCast : String

/-- The generator's writer state: chunk lists of `code_h_`, `code_mm_` and
the never-written `code_swift_`, plus the persistent template values. -/
structure W where
  h : List String
  mm : List String
  swift : List String
  kv : KeyVals

/-- Append one chunk to `code_h_`. -/
def addH (w : W) (t : String) : W := { w with h := w.h ++ [emitChunk t] }

/-- Append one chunk to `code_mm_`. -/
def addMM (w : W) (t : String) : W := { w with mm := w.mm ++ [emitChunk t] }

/-- The `CodeWriter::ToString`. -/
def textOf (chunks : List String) : String := String.join chunks

/-- Sequence an option-valued chunk producer over a list, concatenating the
chunks (abort anywhere aborts the whole run, matching `abort()`). -/
def optChunks (g : α → Option (List String)) : List α → Option (List String)
  | [] => some []
  | a :: as => (g a).bind fun c => (optChunks g as).map fun cs => c ++ cs

/-- Pairwise variant of `optChunks` for emitters writing both streams. -/
def optChunks2 (g : α → Option (List String × List String)) :
    List α → Option (List String × List String)
  | [] => some ([], [])
  | a :: as =>
      (g a).bind fun c => (optChunks2 g as).map fun cs =>
        (c.1 ++ cs.1, c.2 ++ cs.2)

/-- Option-valued left fold (a loop whose body may hit `abort()`). -/
def optFoldl (f : β → α → Option β) : β → List α → Option β
  | b, [] => some b
  | b, a :: as => (f b a).bind fun b' => optFoldl f b' as

/-! ### Emitters -/

/-- One field of a fixed struct in `GenStructDecl`: the field's comment and
its member declaration line. -/
def structDeclFieldChunks (f : FieldDef) : Option (List String) :=
  (genTypeForGet f.ty).map fun ft =>
    [commentChunk f.docComment "  ",
     emitChunk ("  " ++ ft ++ " " ++ fieldName f ++ ";")]

/-- The `code_h_` chunks of `GenStructDecl`: the struct comment, for fixed
structs the inline `typedef struct` with all member fields, and the `Ref`
and `Offset` typedefs. -/
def structDeclChunks (sd : StructDef) : Option (List String) :=
  let refName := genTypeRefDef sd
  let offName := genTypeOffsetDef sd
  let tailChunks :=
    [emitChunk ("typedef struct " ++ refName ++ " \x7b const void *buf; \x7d " ++
       refName ++ ";"),
     emitChunk ("typedef struct " ++ offName ++
       " \x7b const uint32_t offset; \x7d " ++ offName ++ ";"),
     emitChunk ""]
  if sd.fixed then
    let structName := genTypeInternalDef sd
    (optChunks structDeclFieldChunks sd.fields).map fun fc =>
      commentChunk sd.docComment "" ::
        emitChunk ("typedef struct " ++ structName ++ " \x7b") :: fc ++
        [emitChunk ("\x7d " ++ structName ++ ";"), emitChunk ""] ++ tailChunks
  else
    some (commentChunk sd.docComment "" :: tailChunks)

/-- The `GenStructDecl` (writes `code_h_` only). -/
def genStructDecl (w : W) (sd : StructDef) : Option W :=
  (structDeclChunks sd).map fun c => { w with h := w.h ++ c }

/-- One field in `GenStructFields`: the accessor declaration (`code_h_`)
and the accessor implementation (`code_mm_`).  There is no deprecation
test: every field of the struct gets an accessor. -/
def structFieldsFieldChunks (sd : StructDef) (f : FieldDef) :
    Option (List String × List String) :=
  (genTypeForGet f.ty).bind fun ft =>
  (genTypeCastGet f.ty).map fun fc =>
    let refName := genTypeRefDef sd
    let flatbufName := genTypeFlatbuffersDef sd
    let fn := fieldName f
    ([commentChunk f.docComment "  ",
      emitChunk (ft ++ " " ++ refName ++ "_" ++ fn ++ "(" ++ refName ++
        " self_) NS_SWIFT_NAME(getter:" ++ refName ++ "." ++ fn ++
        "(self:));")],
     [emitChunk (ft ++ " " ++ refName ++ "_" ++ fn ++ "(" ++ refName ++
        " self_) \x7b"),
      emitChunk ("  auto value = reinterpret_cast<const " ++ flatbufName ++
        " *>(self_.buf)->" ++ fn ++ "();"),
      emitChunk ("  return " ++ fc ++ ";"),
      emitChunk "\x7d",
      emitChunk ""])

/-- The chunks of `GenStructFields` over all fields, plus the blank
`code_h_` line that closes the block. -/
def structFieldsChunks (sd : StructDef) : Option (List String × List String) :=
  (optChunks2 (structFieldsFieldChunks sd) sd.fields).map fun p =>
    (p.1 ++ [emitChunk ""], p.2)

/-- The `GenStructFields`. -/
def genStructFields (w : W) (sd : StructDef) : Option W :=
  (structFieldsChunks sd).map fun p =>
    { w with h := w.h ++ p.1, mm := w.mm ++ p.2 }

/-- The `GenParamSwift`. -/
def genParamSwift (f : FieldDef) (first : Bool) : Option String :=
  (genTypeForSet f.ty).map fun ts =>
    selectorComponentName f.name first ++ ":(" ++ ts ++ ")" ++
      selectorArgumentName f.name

/-- The loop of `GenCreateSelector`: deprecated fields are skipped, other
parameters are appended separated by single spaces. -/
def createSelectorFold (acc : String) (first : Bool) :
    List FieldDef → Option String
  | [] => some acc
  | f :: rest =>
      if f.deprecated then createSelectorFold acc first rest
      else
        (genParamSwift f first).bind fun pstr =>
          createSelectorFold (acc ++ (if first then "" else " ") ++ pstr)
            false rest

/-- The `GenCreateSelector`. -/
def genCreateSelector (sd : StructDef) : Option String :=
  createSelectorFold ("make" ++ genTypeInternalDef sd ++ "With") true
    sd.fields

/-- The argument list of `GenTemporaryStruct` (non-deprecated fields,
comma-separated). -/
def tempStructArgs (nm : String) (acc : String) (first : Bool) :
    List FieldDef → String
  | [] => acc
  | f :: rest =>
      if f.deprecated then tempStructArgs nm acc first rest
      else
        tempStructArgs nm
          (acc ++ (if first then "" else ", ") ++ nm ++ "->" ++ fieldName f)
          false rest

/-- The `GenTemporaryStruct`. -/
def genTemporaryStruct (sd : StructDef) (nm : String) : String :=
  "auto " ++ temporaryArgumentName nm ++ " = " ++ selectorArgumentName nm ++
    " ? " ++ genTypeFlatbuffersDef sd ++ "(" ++
    tempStructArgs nm "" true sd.fields ++ ") : " ++
    genTypeFlatbuffersDef sd ++ "();"

/-- The temporary-struct line a field contributes in `GenBuilders`: present
exactly for non-deprecated fields of fixed-struct type. -/
def buildersTempChunks (f : FieldDef) : List String :=
  if f.deprecated then []
  else
    match f.ty with
    | .tStruct sd' =>
        if sd'.fixed then [emitChunk ("  " ++ genTemporaryStruct sd' f.name)]
        else []
    | _ => []

/-- The argument-cast line a field contributes in `GenBuilders`: skipped
for deprecated fields. -/
def buildersCastChunks (f : FieldDef) : Option (List String) :=
  if f.deprecated then some []
  else (genTypeCastSet f.ty f.name).map fun fc =>
    [emitChunk ("    , " ++ fc)]

/-- The chunks of `GenBuilders`: the selector declaration in `code_h_` and
the full creator implementation in `code_mm_`. -/
def buildersChunks (sd : StructDef) : Option (List String × List String) :=
  let offName := genTypeOffsetDef sd
  let createName :=
    wrapInNameSpace sd.definedNamespace ("Create" ++ defName sd)
  (genCreateSelector sd).bind fun sel =>
  (optChunks buildersCastChunks sd.fields).map fun castC =>
    ([emitChunk ("- (" ++ offName ++ ")" ++ sel ++ ";")],
     emitChunk ("- (" ++ offName ++ ")" ++ sel ++ " \x7b") ::
       (sd.fields.map buildersTempChunks).flatten ++
       [emitChunk ("  return \x7b .offset = " ++ createName ++ "(*_fbb")] ++
       castC ++
       [emitChunk "  ).o \x7d;", emitChunk "\x7d", emitChunk ""])

/-- The `GenBuilders`. -/
def genBuilders (w : W) (sd : StructDef) : Option W :=
  (buildersChunks sd).map fun p =>
    { w with h := w.h ++ p.1, mm := w.mm ++ p.2 }

/-- The `code_h_` chunks of `GenArrayDecl`. -/
def arrayDeclChunks (t : CType) : Option (List String) :=
  (genTypeRef t).bind fun refName =>
  (genTypeOffset t).map fun offName =>
    [emitChunk ("typedef struct " ++ refName ++
       " \x7b const void *buf; \x7d " ++ refName ++ ";"),
     emitChunk ("typedef struct " ++ offName ++
       " \x7b const uint32_t offset; \x7d " ++ offName ++ ";"),
     emitChunk ""]

/-- The `GenArrayDecl`. -/
def genArrayDecl (w : W) (t : CType) : Option W :=
  (arrayDeclChunks t).map fun c => { w with h := w.h ++ c }

/-- The guard of the sorted-array builder and the `lookupByKey` accessor:
`type.VectorType().base_type == BASE_TYPE_STRUCT &&
type.VectorType().struct_def->has_key`. -/
def hasKeyElem (t : CType) : Bool :=
  match vectorType t with
  | .tStruct sd => sd.hasKey
  | _ => false

/-- The `make...Array` builder declaration of `GenArrayBuilders`. -/
def abBaseH (offName elemName elemOff : String) : List String :=
  [emitChunk ("- (" ++ offName ++ ")make" ++ elemName ++
     "Array:(const " ++ elemOff ++ " *)elements count:(NSInteger)count;")]

/-- The `make...Array` builder implementation (over `CreateVector`). -/
def abBaseMM (offName elemName elemOff elemFlat : String) : List String :=
  [emitChunk ("- (" ++ offName ++ ")make" ++ elemName ++
     "Array:(const " ++ elemOff ++ " *)elements count:(NSInteger)count \x7b"),
   emitChunk ("  return \x7b .offset = _fbb->CreateVector(reinterpret_cast<const " ++
     elemFlat ++ " *>(elements), count).o \x7d;"),
   emitChunk "\x7d",
   emitChunk ""]

/-- The `make...SortedArray` builder declaration. -/
def abSortH (offName elemName elemOff : String) : List String :=
  [emitChunk ("- (" ++ offName ++ ")make" ++ elemName ++
     "SortedArray:(" ++ elemOff ++ " *)elements count:(NSInteger)count;")]

/-- The `make...SortedArray` builder implementation (over
`CreateVectorOfSortedTables`). -/
def abSortMM (offName elemName elemOff elemFlat : String) : List String :=
  [emitChunk ("- (" ++ offName ++ ")make" ++ elemName ++
     "SortedArray:(" ++ elemOff ++ " *)elements count:(NSInteger)count \x7b"),
   emitChunk ("  return \x7b .offset = _fbb->CreateVectorOfSortedTables(reinterpret_cast<" ++
     elemFlat ++ " *>(elements), count).o \x7d;"),
   emitChunk "\x7d",
   emitChunk ""]

/-- The chunks of `GenArrayBuilders`: the plain `make...Array` builder
always, the `make...SortedArray` builder exactly under `hasKeyElem`. -/
def arrayBuildersChunks (t : CType) : Option (List String × List String) :=
  (genTypeOffset t).bind fun offName =>
  (genTypeInternal (vectorType t)).bind fun elemName =>
  (genTypeOffset (vectorType t)).bind fun elemOff =>
  (genTypeFlatbuffersOffset (vectorType t)).map fun elemFlat =>
    (abBaseH offName elemName elemOff ++
       (if hasKeyElem t then abSortH offName elemName elemOff else []),
     abBaseMM offName elemName elemOff elemFlat ++
       (if hasKeyElem t then abSortMM offName elemName elemOff elemFlat
        else []))

/-- The `GenArrayBuilders`. -/
def genArrayBuilders (w : W) (t : CType) : Option W :=
  (arrayBuildersChunks t).map fun p =>
    { w with h := w.h ++ p.1, mm := w.mm ++ p.2 }

/-- The key-field search loop of `GenArrayFields`: the first field carrying
the `key` flag sets `KEY_TYPE` (both writers) and `KEY_CAST`; when no field
carries the flag the previous template values stay in force. -/
def keyValsUpdate (esd : StructDef) (kv : KeyVals) : Option KeyVals :=
  match esd.fields.find? (fun f => f.key) with
  | some f =>
      (genTypeForKey f.ty).bind fun kt =>
      (genTypeCastKey f.ty).map fun kc =>
        { hKeyType := kt, mmKeyType := kt, mmKeyCast := kc }
  | none => some kv

/-- The `count` and `subscript` declarations of `GenArrayFields`. -/
def afBaseH (refName elemNameH : String) : List String :=
  [emitChunk ("NSInteger " ++ refName ++ "_count(" ++ refName ++
     " self_) NS_SWIFT_NAME(getter:" ++ refName ++ ".count(self:));"),
   emitChunk (elemNameH ++ " " ++ refName ++ "_subscript(" ++ refName ++
     " self_, NSInteger index) NS_SWIFT_NAME(getter:" ++ refName ++
     ".subscript(self:_:));")]

/-- The `count` and `subscript` implementations of `GenArrayFields`. -/
def afBaseMM (refName elemNameMM elemFlat : String) : List String :=
  [emitChunk ("NSInteger " ++ refName ++ "_count(" ++ refName ++
     " self_) \x7b"),
   emitChunk ("  auto value = reinterpret_cast<const flatbuffers::Vector<flatbuffers::Offset<" ++
     elemFlat ++ ">> *>(self_.buf)->Length();"),
   emitChunk "  return static_cast<NSInteger>(value);",
   emitChunk "\x7d",
   emitChunk "",
   emitChunk (elemNameMM ++ " " ++ refName ++ "_subscript(" ++ refName ++
     " self_, NSInteger index) \x7b"),
   emitChunk ("  auto value = reinterpret_cast<const flatbuffers::Vector<flatbuffers::Offset<" ++
     elemFlat ++ ">> *>(self_.buf)->Get(static_cast<flatbuffers::uoffset_t>(index));"),
   emitChunk "  return \x7b .buf = value \x7d;",
   emitChunk "\x7d",
   emitChunk ""]

/-- The `lookupByKey` declaration, keyed by the `KEY_TYPE` template value. -/
def afLookupH (refName elemNameH keyType : String) : List String :=
  [emitChunk (elemNameH ++ " " ++ refName ++ "_lookupByKey(" ++
     refName ++ " self_, " ++ keyType ++
     " key) NS_SWIFT_NAME(" ++ refName ++ ".lookup(self:by:));")]

/-- The `lookupByKey` implementation (over `LookupByKey`), using the
`KEY_TYPE`, `KEY_CAST` and `FIELD_CAST` template values. -/
def afLookupMM (refName elemNameMM elemFlat keyType keyCast fieldCast :
    String) : List String :=
  [emitChunk (elemNameMM ++ " " ++ refName ++ "_lookupByKey(" ++
     refName ++ " self_, " ++ keyType ++ " key) \x7b"),
   emitChunk ("  auto value = reinterpret_cast<const flatbuffers::Vector<flatbuffers::Offset<" ++
     elemFlat ++ ">> *>(self_.buf)->LookupByKey(" ++ keyCast ++ ");"),
   emitChunk ("  return " ++ fieldCast ++ ";"),
   emitChunk "\x7d",
   emitChunk ""]

/-- The chunks of `GenArrayFields` plus the resulting template values: the
`count`/`subscript` accessors always, the `lookupByKey` accessor (over
`LookupByKey`) exactly under `hasKeyElem`.  The source dereferences
`VectorType().struct_def` for `ELEMENT_FLATBUF` unconditionally; an absent
struct reference is the error path. -/
def arrayFieldsChunks (t : CType) (kv : KeyVals) :
    Option (List String × List String × KeyVals) :=
  (genTypeRef t).bind fun refName =>
  (genTypeOffset t).bind fun _offName =>
  (genTypeRef (vectorType t)).bind fun elemNameH =>
  (genTypeForGet (vectorType t)).bind fun elemNameMM =>
  (structDefOf (vectorType t)).bind fun esd =>
  let elemFlat := genTypeFlatbuffersDef esd
  if hasKeyElem t then
    (genTypeCastGet (vectorType t)).bind fun fieldCast =>
    (keyValsUpdate esd kv).map fun kv' =>
      (afBaseH refName elemNameH ++
         afLookupH refName elemNameH kv'.hKeyType ++ [emitChunk ""],
       afBaseMM refName elemNameMM elemFlat ++
         afLookupMM refName elemNameMM elemFlat kv'.mmKeyType kv'.mmKeyCast
           fieldCast,
       kv')
  else
    some (afBaseH refName elemNameH ++ [emitChunk ""],
      afBaseMM refName elemNameMM elemFlat, kv)

/-- The `GenArrayFields`. -/
def genArrayFields (w : W) (t : CType) : Option W :=
  (arrayFieldsChunks t w.kv).map fun p =>
    { w with h := w.h ++ p.1, mm := w.mm ++ p.2.1, kv := p.2.2 }

/-- The chunks of `GenFinish` (the unused `REF_NAME` value is omitted). -/
def finishChunks (sd : StructDef) : List String × List String :=
  let internalName := genTypeInternalDef sd
  let offName := genTypeOffsetDef sd
  let flatbufName := genTypeFlatbuffersDef sd
  ([emitChunk ("- (void)finishWith" ++ internalName ++ ":(" ++ offName ++
      ")offset;")],
   [emitChunk ("- (void)finishWith" ++ internalName ++ ":(" ++ offName ++
      ")offset \x7b"),
    emitChunk ("  _fbb->Finish(flatbuffers::Offset<" ++ flatbufName ++
      ">(offset.offset));"),
    emitChunk "\x7d",
    emitChunk ""])

/-- The `GenFinish` (never aborts: only definition overloads are used). -/
def genFinish (w : W) (sd : StructDef) : W :=
  { w with h := w.h ++ (finishChunks sd).1, mm := w.mm ++ (finishChunks sd).2 }

/-! ### The arrays map and generate() -/

/-- The `type.VectorType().base_type == BASE_TYPE_VECTOR || BASE_TYPE_STRUCT ||
BASE_TYPE_UNION`, the trigger deciding whether a vector type is recorded in
the `arrays` map. -/
def elemTriggers : CType → Bool
  | .tVector _ => true
  | .tStruct _ => true
  | .tUnion => true
  | _ => false

/-- Lexicographic comparison of character lists, the `std::string`
`operator<` ordering the `std::map` keys. -/
def strLtList : List Char → List Char → Bool
  | [], [] => false
  | [], _ :: _ => true
  | _ :: _, [] => false
  | a :: as, b :: bs =>
      if a.toNat < b.toNat then true
      else if b.toNat < a.toNat then false
      else strLtList as bs

/-- Lexicographic string comparison. -/
def strLt (a b : String) : Bool := strLtList a.data b.data

/-- Ordered-map assignment `arrays[k] = v` on a key-sorted association
list (the `std::map<std::string, Type>` semantics). -/
def mapInsert (k : String) (v : CType) :
    List (String × CType) → List (String × CType)
  | [] => [(k, v)]
  | (k', v') :: rest =>
      if strLt k k' then (k, v) :: (k', v') :: rest
      else if k = k' then (k, v) :: rest
      else (k', v') :: mapInsert k v rest

/-- The per-field collection loop of `generate()`: walk the vector nesting
and record the field's original type under its `GenTypeInternal` name
whenever the element type is a vector, struct or union. -/
def arrayCollectLoop (orig : CType) (m : List (String × CType)) :
    CType → Option (List (String × CType))
  | .tVector e =>
      if elemTriggers e then
        match genTypeInternal orig with
        | some k => arrayCollectLoop orig (mapInsert k orig m) e
        | none => none
      else arrayCollectLoop orig m e
  | _ => some m

/-- The `arrays` map built at the start of `generate()` over every field of
every struct. -/
def collectArrays (p : Parser) : Option (List (String × CType)) :=
  optFoldl
    (fun m sd =>
      optFoldl (fun m' f => arrayCollectLoop f.ty m' f.ty) m sd.fields)
    [] p.structs

/-- The forward-declaration pass step: `if (!struct_def.generated)
GenStructDecl`. -/
def declStep (w : W) (sd : StructDef) : Option W :=
  if sd.generated then some w else genStructDecl w sd

/-- The accessor pass step: `if (!struct_def.generated) GenStructFields`. -/
def fieldsStep (w : W) (sd : StructDef) : Option W :=
  if sd.generated then some w else genStructFields w sd

/-- The builder pass step: `if (!struct_def.generated && !struct_def.fixed)
GenBuilders`. -/
def buildersStep (w : W) (sd : StructDef) : Option W :=
  if !sd.generated && !sd.fixed then genBuilders w sd else some w

/-- The array-declaration pass step (over `it->second`). -/
def arrayDeclStep (w : W) (e : String × CType) : Option W :=
  genArrayDecl w e.2

/-- The array-accessor pass step. -/
def arrayFieldsStep (w : W) (e : String × CType) : Option W :=
  genArrayFields w e.2

/-- The array-builder pass step. -/
def arrayBuildersStep (w : W) (e : String × CType) : Option W :=
  genArrayBuilders w e.2

/-- The `FlatBuffersGeneratedWarning()`.  Modelled from the spec: the constant
lives in the shared generator support code outside this excerpt. -/
def flatBuffersGeneratedWarning : String :=
  "automatically generated by the FlatBuffers compiler, do not modify"

/-- The `GeneratedFileName`. -/
def generatedFileName (path fileName sfx : String) : String :=
  path ++ fileName ++ "_" ++ sfx

/-- The `GenIncludeGuard`: the filename stripped to alphanumerics, the fixed
prefixes, one component of the current namespace per underscore, and a
final upper-casing pass. -/
def genIncludeGuard (fileName : String) (comps : List String) : String :=
  let g := String.mk (fileName.data.filter (fun c => isAlnumChar c))
  let g := "FLATBUFFERS_GENERATED_SWIFT_" ++ g
  let g := g ++ "_"
  let g := comps.foldl (fun acc c => acc ++ c ++ "_") g
  let g := g ++ "H_"
  String.mk (g.data.map toUpperChar)

/-- The `SwiftGenerator::generate()`: clear the header writer, emit the
prologue, clear the implementation writer, emit its prologue, collect the
`arrays` map, run the declaration, accessor and builder passes for structs
and collected vector types, emit the root-finish method when a root struct
is declared, close both files and return the three generated files. -/
def generateW (p : Parser) (path fileName : String) (w0 : W) :
    Option (W × List (String × String)) :=
  let w := { w0 with h := [] }
  let w := addH w ("// " ++ flatBuffersGeneratedWarning ++ "\n\n")
  let includeGuard := genIncludeGuard fileName p.currentNamespace
  let w := addH w ("#ifndef " ++ includeGuard)
  let w := addH w ("#define " ++ includeGuard)
  let w := addH w ""
  let w := addH w "#import \"flatbuffers_swift.h\""
  let w := addH w ""
  let w := { w with mm := [] }
  let w := addMM w ("// " ++ flatBuffersGeneratedWarning ++ "\n\n")
  let w := addMM w ("#import \"" ++ fileName ++ "_generated.h\"")
  let w := addMM w ("#import \"" ++ fileName ++ "_swift_generated.h\"")
  let w := addMM w ""
  (collectArrays p).bind fun arrays =>
  (optFoldl declStep w p.structs).bind fun w =>
  (optFoldl arrayDeclStep w arrays).bind fun w =>
  (optFoldl fieldsStep w p.structs).bind fun w =>
  (optFoldl arrayFieldsStep w arrays).bind fun w =>
  let w := addH w "@interface FlatBufferBuilder (XXX)"
  let w := addMM w "@implementation FlatBufferBuilder (XXX)"
  let w := addMM w ""
  (optFoldl buildersStep w p.structs).bind fun w =>
  (optFoldl arrayBuildersStep w arrays).bind fun w =>
  let w :=
    match p.rootStructDef with
    | some sd => genFinish w sd
    | none => w
  let w := addH w "@end"
  let w := addH w ""
  let w := addMM w "@end"
  let w := addMM w ""
  let w := addH w ("#endif  // " ++ includeGuard)
  some (w,
    [(generatedFileName path fileName "swift_generated.h", textOf w.h),
     (generatedFileName path fileName "swift_generated.mm", textOf w.mm),
     (generatedFileName path fileName "swift_generated.swift",
       textOf w.swift)])

/-- A freshly constructed generator's writer state (empty streams, empty
template values). -/
def freshW : W := { h := [], mm := [], swift := [], kv := ⟨"", "", ""⟩ }

/-- The `GenerateSwift`: construct a generator and run `generate()`. -/
def generateSwift (p : Parser) (path fileName : String) :
    Option (W × List (String × String)) :=
  generateW p path fileName freshW

/-- The full state of a `SwiftGenerator`: the schema model captured by the
const reference `parser_`, the output location and the writer state. -/
structure SwiftGeneratorSt where
  parser : Parser
  path : String
  fileName : String
  w : W

/-- The `generate()` as a transition on the full generator state: only the
writer component is written; the model is read through a const reference. -/
def generateSt (st : SwiftGeneratorSt) :
    Option (SwiftGeneratorSt × List (String × String)) :=
  (generateW st.parser st.path st.fileName st.w).map fun r =>
    ({ st with w := r.1 }, r.2)

/-! ## Theorems -/

/-- Claim C1: on a type whose base type is Union or Array (the variants the
closed tagged union leaves to the `abort()` default), every one of the
generator's type-rendering dispatch functions takes the abort error path
and returns no rendered string. -/
theorem genType_dispatch_aborts_on_union_array (t : CType) (nm : String)
    (h : t = CType.tUnion ∨ t = CType.tArray) :
    genTypeInternal t = none ∧ genTypeFlatbuffers t = none ∧
    genTypeFlatbuffersOffset t = none ∧ genTypeOffset t = none ∧
    genTypeRef t = none ∧ genTypeForGet t = none ∧
    genTypeForSet t = none ∧ genTypeForKey t = none ∧
    genTypeCastGet t = none ∧ genTypeCastKey t = none ∧
    genTypeCastSet t nm = none := by
  rcases h with rfl | rfl <;>
    exact ⟨rfl, rfl, rfl, rfl, rfl, rfl, rfl, rfl, rfl, rfl, rfl⟩

/-- Witness for C1 at the Union variant and a concrete name. -/
theorem genType_dispatch_aborts_on_union_array_witness :
    genTypeInternal CType.tUnion = none ∧
    genTypeFlatbuffers CType.tUnion = none ∧
    genTypeFlatbuffersOffset CType.tUnion = none ∧
    genTypeOffset CType.tUnion = none ∧
    genTypeRef CType.tUnion = none ∧
    genTypeForGet CType.tUnion = none ∧
    genTypeForSet CType.tUnion = none ∧
    genTypeForKey CType.tUnion = none ∧
    genTypeCastGet CType.tUnion = none ∧
    genTypeCastKey CType.tUnion = none ∧
    genTypeCastSet CType.tUnion "x" = none :=
  genType_dispatch_aborts_on_union_array CType.tUnion "x" (Or.inl rfl)

/-- A parser with a nonempty include table, for exercising the make-rule
entry point. -/
def exMakeParser : Parser :=
  { structs := [], rootStructDef := none, currentNamespace := [],
    includedFiles := [("monster.fbs", "weapon.fbs")] }

/-- Claim C7, counterexample: at a concrete parser with included files,
`SwiftMakeRule` returns the empty string; the result does not name the
generated file (the name does not even occur in it), contradicting the
claim that the returned rule names the generated file and its included
dependencies. -/
theorem swiftMakeRule_empty_counterexample :
    swiftMakeRule exMakeParser "tmp/" "monster.fbs" = "" ∧
    ¬ List.IsInfix "monster".data
        (swiftMakeRule exMakeParser "tmp/" "monster.fbs").data :=
  ⟨rfl, by decide⟩

/-- Claim C7, amended: `SwiftMakeRule` returns the empty string for every
parser, path and file name — the statements assembling the rule from the
generated file name and the included files are commented out in the
source. -/
theorem swiftMakeRule_eq_empty (p : Parser) (path fileName : String) :
    swiftMakeRule p path fileName = "" := rfl

/-- The declaration pass equals the unguarded pass over the non-generated
structs. -/
theorem declPass_filter (l : List StructDef) : ∀ w : W,
    optFoldl declStep w l =
      optFoldl genStructDecl w (l.filter (fun sd => !sd.generated)) := by
  induction l with
  | nil => intro w; rfl
  | cons sd rest ih =>
      intro w
      by_cases hg : sd.generated
      · simp [optFoldl, declStep, hg, ih]
      · simp only [Bool.not_eq_true] at hg
        simp only [optFoldl, declStep, hg, List.filter_cons,
          Bool.not_false, if_true, Bool.false_eq_true, if_false]
        cases genStructDecl w sd with
        | none => rfl
        | some w' => simp [Option.bind, ih]

/-- The accessor pass equals the unguarded pass over the non-generated
structs. -/
theorem fieldsPass_filter (l : List StructDef) : ∀ w : W,
    optFoldl fieldsStep w l =
      optFoldl genStructFields w (l.filter (fun sd => !sd.generated)) := by
  induction l with
  | nil => intro w; rfl
  | cons sd rest ih =>
      intro w
      by_cases hg : sd.generated
      · simp [optFoldl, fieldsStep, hg, ih]
      · simp only [Bool.not_eq_true] at hg
        simp only [optFoldl, fieldsStep, hg, List.filter_cons,
          Bool.not_false, if_true, Bool.false_eq_true, if_false]
        cases genStructFields w sd with
        | none => rfl
        | some w' => simp [Option.bind, ih]

/-- The builder pass equals the unguarded pass over the non-generated,
non-fixed structs. -/
theorem buildersPass_filter (l : List StructDef) : ∀ w : W,
    optFoldl buildersStep w l =
      optFoldl genBuilders w
        (l.filter (fun sd => !sd.generated && !sd.fixed)) := by
  induction l with
  | nil => intro w; rfl
  | cons sd rest ih =>
      intro w
      by_cases hc : (!sd.generated && !sd.fixed) = true
      · simp only [optFoldl, buildersStep, hc, if_true, List.filter_cons]
        cases genBuilders w sd with
        | none => rfl
        | some w' => simp [Option.bind, ih]
      · simp only [optFoldl, buildersStep, hc, if_false, List.filter_cons]
        simp only [hc, Bool.false_eq_true, if_false, Option.bind]
        exact ih w

/-- Claim C3: a struct whose `generated` flag is set contributes to none of
the three emission passes — each pass is the corresponding unguarded pass
over the structs with the flag clear, so every non-generated struct is
declared and given accessors (and, when not fixed, a builder), in order. -/
theorem generated_structs_skipped (w : W) (l : List StructDef) :
    optFoldl declStep w l =
      optFoldl genStructDecl w (l.filter (fun sd => !sd.generated)) ∧
    optFoldl fieldsStep w l =
      optFoldl genStructFields w (l.filter (fun sd => !sd.generated)) ∧
    optFoldl buildersStep w l =
      optFoldl genBuilders w
        (l.filter (fun sd => !sd.generated && !sd.fixed)) :=
  ⟨declPass_filter l w, fieldsPass_filter l w, buildersPass_filter l w⟩

/-- The `optChunks2` decomposition: a successful run yields one chunk pair per
input element, in order, and the output is their concatenation. -/
theorem optChunks2_decomp (g : α → Option (List String × List String)) :
    ∀ (l : List α) pr, optChunks2 g l = some pr →
    ∃ cs : List (List String × List String),
      List.Forall₂ (fun a c => g a = some c) l cs ∧
      pr.1 = (cs.map Prod.fst).flatten ∧ pr.2 = (cs.map Prod.snd).flatten := by
  intro l
  induction l with
  | nil =>
      intro pr hpr
      refine ⟨[], List.Forall₂.nil, ?_, ?_⟩ <;>
        · simp only [optChunks2] at hpr
          cases hpr
          simp
  | cons a as ih =>
      intro pr hpr
      simp only [optChunks2] at hpr
      cases hga : g a with
      | none => rw [hga] at hpr; cases hpr
      | some c =>
          rw [hga] at hpr
          simp only [Option.bind] at hpr
          cases hrest : optChunks2 g as with
          | none => rw [hrest] at hpr; cases hpr
          | some cs' =>
              rw [hrest] at hpr
              simp only [Option.map] at hpr
              cases hpr
              obtain ⟨cs, hf, h1, h2⟩ := ih cs' hrest
              exact ⟨c :: cs, List.Forall₂.cons hga hf,
                by simp [h1], by simp [h2]⟩

/-- Each field's accessor chunks are nonempty in both streams. -/
theorem structFieldsFieldChunks_ne_nil (sd : StructDef) (f : FieldDef)
    (c : List String × List String)
    (hc : structFieldsFieldChunks sd f = some c) : c.1 ≠ [] ∧ c.2 ≠ [] := by
  simp only [structFieldsFieldChunks] at hc
  cases h1 : genTypeForGet f.ty with
  | none => rw [h1] at hc; cases hc
  | some ft =>
      rw [h1] at hc
      cases h2 : genTypeCastGet f.ty with
      | none => rw [h2] at hc; cases hc
      | some fc =>
          rw [h2] at hc
          simp only [Option.bind, Option.map] at hc
          cases hc
          exact ⟨by simp, by simp⟩

/-- Claim C9: deprecated fields are handled asymmetrically.  The builder
creation selector is a function of the non-deprecated fields only (the
deprecated ones are omitted), and so are the builder's temporary and cast
lines; the read-accessor emitter produces a nonempty accessor block for
every field of the struct, deprecated ones included. -/
theorem deprecated_asymmetry (sd : StructDef) (w : W) (f : FieldDef)
    (hdep : f.deprecated = true) :
    genCreateSelector sd =
      createSelectorFold ("make" ++ genTypeInternalDef sd ++ "With") true
        (sd.fields.filter (fun g => !g.deprecated)) ∧
    buildersCastChunks f = some [] ∧ buildersTempChunks f = [] ∧
    (genStructFields w sd).elim True (fun w' =>
      ∃ cs : List (List String × List String),
        List.Forall₂
          (fun g c => structFieldsFieldChunks sd g = some c ∧
            c.1 ≠ [] ∧ c.2 ≠ [])
          sd.fields cs ∧
        w'.h = w.h ++ (cs.map Prod.fst).flatten ++ [emitChunk ""] ∧
        w'.mm = w.mm ++ (cs.map Prod.snd).flatten) := by
  refine ⟨?_, ?_, ?_, ?_⟩
  · have key : ∀ (l : List FieldDef) (acc : String) (first : Bool),
        createSelectorFold acc first l =
          createSelectorFold acc first (l.filter (fun g => !g.deprecated)) := by
      intro l
      induction l with
      | nil => intro acc first; rfl
      | cons g rest ih =>
          intro acc first
          by_cases hg : g.deprecated
          · simp [createSelectorFold, hg, ih]
          · simp only [Bool.not_eq_true] at hg
            simp only [createSelectorFold, hg, List.filter_cons,
              Bool.not_false, if_true, Bool.false_eq_true, if_false]
            cases genParamSwift g first with
            | none => rfl
            | some pstr => simp [Option.bind, ih]
    exact key sd.fields _ _
  · simp [buildersCastChunks, hdep]
  · simp [buildersTempChunks, hdep]
  · cases hg : genStructFields w sd with
    | none => simp [Option.elim]
    | some w' =>
        simp only [Option.elim]
        simp only [genStructFields, structFieldsChunks] at hg
        cases hch : optChunks2 (structFieldsFieldChunks sd) sd.fields with
        | none => rw [hch] at hg; cases hg
        | some pr =>
            rw [hch] at hg
            simp only [Option.map] at hg
            cases hg
            obtain ⟨cs, hf, h1, h2⟩ :=
              optChunks2_decomp (structFieldsFieldChunks sd) sd.fields pr hch
            refine ⟨cs, ?_, by simp [h1], by simp [h2]⟩
            exact hf.imp (fun g c hgc =>
              ⟨hgc, structFieldsFieldChunks_ne_nil sd g c hgc⟩)

/-- A table with a single key field, whose vector type is collected as an
array. -/
def exKeyedStruct : StructDef :=
  .mk "Item" [] false true false
    [.mk "tag" .tUchar false false [], .mk "id" .tInt false true []] []

/-- A vector of the keyed table. -/
def exKeyedVec : CType := .tVector (.tStruct exKeyedStruct)

/-- Claim C5: the sorted-array builder (`make...SortedArray`, over
`CreateVectorOfSortedTables`) and the `lookupByKey` accessor (over
`LookupByKey`) are emitted for a collected vector type exactly when the
element type is a struct/table whose `has_key` flag is set, and the key
parameter's type and cast in the lookup accessor come from the first field
of the element struct carrying the `key` flag.  The final conjuncts
evaluate both emitters at a concrete keyed vector type to show the keyed
branch is exercised. -/
theorem sortedArray_lookup_iff_keyed (kv : KeyVals) (t : CType) :
    (hasKeyElem t = true ↔
      ∃ sd, structDefOf (vectorType t) = some sd ∧ sd.hasKey = true) ∧
    (arrayBuildersChunks t).elim True (fun pr =>
      ∃ offName elemName elemOff elemFlat,
        genTypeOffset t = some offName ∧
        genTypeInternal (vectorType t) = some elemName ∧
        genTypeOffset (vectorType t) = some elemOff ∧
        genTypeFlatbuffersOffset (vectorType t) = some elemFlat ∧
        pr.1 = abBaseH offName elemName elemOff ++
          (if hasKeyElem t then abSortH offName elemName elemOff else []) ∧
        pr.2 = abBaseMM offName elemName elemOff elemFlat ++
          (if hasKeyElem t then abSortMM offName elemName elemOff elemFlat
           else [])) ∧
    (arrayFieldsChunks t kv).elim True (fun pr =>
      ∃ refName elemNameH elemNameMM esd,
        genTypeRef t = some refName ∧
        genTypeRef (vectorType t) = some elemNameH ∧
        genTypeForGet (vectorType t) = some elemNameMM ∧
        structDefOf (vectorType t) = some esd ∧
        (if hasKeyElem t then
          ∃ fieldCast kv',
            genTypeCastGet (vectorType t) = some fieldCast ∧
            keyValsUpdate esd kv = some kv' ∧
            pr.1 = afBaseH refName elemNameH ++
              afLookupH refName elemNameH kv'.hKeyType ++ [emitChunk ""] ∧
            pr.2.1 = afBaseMM refName elemNameMM (genTypeFlatbuffersDef esd) ++
              afLookupMM refName elemNameMM (genTypeFlatbuffersDef esd)
                kv'.mmKeyType kv'.mmKeyCast fieldCast ∧
            pr.2.2 = kv' ∧
            (esd.fields.find? (fun g => g.key)).elim True (fun f =>
              ∃ kt kc, genTypeForKey f.ty = some kt ∧
                genTypeCastKey f.ty = some kc ∧ kv' = ⟨kt, kt, kc⟩)
        else
          pr.1 = afBaseH refName elemNameH ++ [emitChunk ""] ∧
          pr.2.1 = afBaseMM refName elemNameMM (genTypeFlatbuffersDef esd) ∧
          pr.2.2 = kv)) ∧
    (arrayBuildersChunks exKeyedVec).isSome = true ∧
    (arrayFieldsChunks exKeyedVec ⟨"", "", ""⟩).isSome = true := by
  refine ⟨?_, ?_, ?_, by decide, by decide⟩
  · constructor
    · intro hk
      cases hv : vectorType t with
      | tStruct sd =>
          exact ⟨sd, rfl, by simpa [hasKeyElem, hv] using hk⟩
      | _ => simp [hasKeyElem, hv] at hk
    · rintro ⟨sd, hsd, hk⟩
      cases hv : vectorType t with
      | tStruct sd' =>
          rw [hv] at hsd
          simp only [structDefOf, Option.some.injEq] at hsd
          subst hsd
          simp [hasKeyElem, hv, hk]
      | _ => rw [hv] at hsd; simp [structDefOf] at hsd
  · cases h1 : genTypeOffset t with
    | none => simp [arrayBuildersChunks, h1, Option.elim]
    | some offName =>
      cases h2 : genTypeInternal (vectorType t) with
      | none => simp [arrayBuildersChunks, h1, h2, Option.elim]
      | some elemName =>
        cases h3 : genTypeOffset (vectorType t) with
        | none => simp [arrayBuildersChunks, h1, h2, h3, Option.elim]
        | some elemOff =>
          cases h4 : genTypeFlatbuffersOffset (vectorType t) with
          | none => simp [arrayBuildersChunks, h1, h2, h3, h4, Option.elim]
          | some elemFlat =>
              simp only [arrayBuildersChunks, h1, h2, h3, h4, Option.bind,
                Option.map, Option.elim]
              exact ⟨offName, elemName, elemOff, elemFlat, rfl, rfl, rfl,
                rfl, rfl, rfl⟩
  · cases h1 : genTypeRef t with
    | none => simp [arrayFieldsChunks, h1, Option.elim]
    | some refName =>
      cases h0 : genTypeOffset t with
      | none => simp [arrayFieldsChunks, h1, h0, Option.elim]
      | some offName =>
        cases h2 : genTypeRef (vectorType t) with
        | none => simp [arrayFieldsChunks, h1, h0, h2, Option.elim]
        | some elemNameH =>
          cases h3 : genTypeForGet (vectorType t) with
          | none => simp [arrayFieldsChunks, h1, h0, h2, h3, Option.elim]
          | some elemNameMM =>
            cases h4 : structDefOf (vectorType t) with
            | none => simp [arrayFieldsChunks, h1, h0, h2, h3, h4,
                Option.elim]
            | some esd =>
              by_cases hk : hasKeyElem t = true
              · cases h5 : genTypeCastGet (vectorType t) with
                | none =>
                    simp [arrayFieldsChunks, h1, h0, h2, h3, h4, h5, hk,
                      Option.elim]
                | some fieldCast =>
                  cases h6 : keyValsUpdate esd kv with
                  | none =>
                      simp [arrayFieldsChunks, h1, h0, h2, h3, h4, h5, h6,
                        hk, Option.elim]
                  | some kv' =>
                      simp only [arrayFieldsChunks, h1, h0, h2, h3, h4, h5,
                        h6, hk, Option.bind, Option.map, Option.elim,
                        if_true]
                      refine ⟨refName, elemNameH, elemNameMM, esd, rfl, rfl,
                        rfl, rfl, fieldCast, kv', rfl, h6, rfl, rfl, rfl,
                        ?_⟩
                      cases h7 : esd.fields.find? (fun g => g.key) with
                      | none => exact trivial
                      | some f =>
                          show ∃ kt kc, _
                          simp only [keyValsUpdate, h7] at h6
                          cases h8 : genTypeForKey f.ty with
                          | none => rw [h8] at h6; cases h6
                          | some kt =>
                            rw [h8] at h6
                            cases h9 : genTypeCastKey f.ty with
                            | none => rw [h9] at h6; cases h6
                            | some kc =>
                                rw [h9] at h6
                                simp only [Option.bind, Option.map] at h6
                                cases h6
                                exact ⟨kt, kc, rfl, rfl, rfl⟩
              · simp only [Bool.not_eq_true] at hk
                simp only [arrayFieldsChunks, h1, h0, h2, h3, h4, hk,
                  Option.bind, Option.elim, Bool.false_eq_true, if_false]
                exact ⟨refName, elemNameH, elemNameMM, esd, rfl, rfl, rfl,
                  rfl, rfl, rfl, trivial⟩

/-- A table holding a vector of the keyed table. -/
def exHolder : StructDef :=
  .mk "Holder" [] false false false
    [.mk "items" (.tVector (.tStruct exKeyedStruct)) false false []] []

/-- A parser with a fixed struct, a keyed vector field and a root struct. -/
def exParser : Parser :=
  { structs := [exKeyedStruct, exHolder], rootStructDef := some exHolder,
    currentNamespace := ["NS"], includedFiles := [] }

/-- A concrete full generator state. -/
def exGenSt : SwiftGeneratorSt :=
  { parser := exParser, path := "out/", fileName := "monster", w := freshW }

/-- Claim C2: running the backend leaves the schema model unchanged.  The
generator state threads the parser (held by const reference in the source)
next to the writers; a successful `generate()` yields a state with the
identical parser, path and file name, and the run at a concrete schema
shows the success case is exercised. -/
theorem generate_preserves_model (st : SwiftGeneratorSt) :
    (generateSt st).elim True (fun pr =>
      pr.1.parser = st.parser ∧ pr.1.path = st.path ∧
      pr.1.fileName = st.fileName) ∧
    (generateSt exGenSt).isSome = true := by
  refine ⟨?_, by decide⟩
  cases hg : generateW st.parser st.path st.fileName st.w with
  | none => simp [generateSt, hg, Option.elim]
  | some r => simp [generateSt, hg, Option.elim]

/-- Lexicographic comparison is transitive. -/
theorem strLtList_trans : ∀ (a b c : List Char),
    strLtList a b = true → strLtList b c = true →
    strLtList a c = true := by
  intro a
  induction a with
  | nil =>
      intro b c hab hbc
      cases b with
      | nil => simp [strLtList] at hab
      | cons y ys =>
          cases c with
          | nil => simp [strLtList] at hbc
          | cons z zs => simp [strLtList]
  | cons x xs ih =>
      intro b c hab hbc
      cases b with
      | nil => simp [strLtList] at hab
      | cons y ys =>
          cases c with
          | nil => simp [strLtList] at hbc
          | cons z zs =>
              simp only [strLtList] at hab hbc ⊢
              split_ifs at hab hbc ⊢ <;>
                first
                  | rfl
                  | omega
                  | exact ih ys zs hab hbc

/-- Two lists neither of which precedes the other are equal. -/
theorem strLtList_eq_of_not : ∀ (a b : List Char),
    strLtList a b = false → strLtList b a = false → a = b := by
  intro a
  induction a with
  | nil =>
      intro b h1 _
      cases b with
      | nil => rfl
      | cons y ys => simp [strLtList] at h1
  | cons x xs ih =>
      intro b h1 h2
      cases b with
      | nil => simp [strLtList] at h2
      | cons y ys =>
          simp only [strLtList] at h1 h2
          by_cases hxy : x.toNat < y.toNat
          · simp [hxy] at h1
          · by_cases hyx : y.toNat < x.toNat
            · simp [hxy, hyx] at h2
            · simp [hxy, hyx] at h1 h2
              have hx : x = y := by
                apply Char.eq_of_val_eq
                apply UInt32.eq_of_val_eq
                apply Fin.ext
                show x.toNat = y.toNat
                omega
              rw [hx, ih ys h1 h2]

/-- A string neither smaller than nor equal to another is greater. -/
theorem strLt_connex (a b : String) (h1 : strLt a b = false) (h2 : a ≠ b) :
    strLt b a = true := by
  cases hba : strLt b a
  · exfalso
    apply h2
    have hd : a.data = b.data := strLtList_eq_of_not a.data b.data h1 hba
    cases a; cases b
    exact congrArg String.mk hd
  · rfl

/-- Keys of an inserted map are the new key or old keys. -/
theorem mapInsert_keys (k : String) (v : CType) :
    ∀ (m : List (String × CType)) (x : String),
      x ∈ (mapInsert k v m).map Prod.fst →
      x = k ∨ x ∈ m.map Prod.fst := by
  intro m
  induction m with
  | nil => intro x hx; simp [mapInsert] at hx; exact Or.inl hx
  | cons e rest ih =>
      intro x hx
      rw [mapInsert] at hx
      by_cases hlt : strLt k e.1 = true
      · rw [if_pos hlt] at hx
        simp only [List.map_cons, List.mem_cons] at hx ⊢
        tauto
      · rw [if_neg hlt] at hx
        by_cases heq : k = e.1
        · rw [if_pos heq] at hx
          simp only [List.map_cons, List.mem_cons] at hx ⊢
          tauto
        · rw [if_neg heq] at hx
          simp only [List.map_cons, List.mem_cons] at hx ⊢
          rcases hx with hx | hx
          · tauto
          · rcases ih x hx with h | h <;> tauto

/-- The `std::map` assignment keeps the association list strictly sorted by
key. -/
theorem mapInsert_sorted (k : String) (v : CType) :
    ∀ m : List (String × CType),
      List.Pairwise (fun a b => strLt a.1 b.1 = true) m →
      List.Pairwise (fun a b => strLt a.1 b.1 = true) (mapInsert k v m) := by
  intro m
  induction m with
  | nil => intro _; simp [mapInsert]
  | cons e rest ih =>
      intro hp
      rw [List.pairwise_cons] at hp
      obtain ⟨he, hrest⟩ := hp
      rw [mapInsert]
      by_cases hlt : strLt k e.1 = true
      · rw [if_pos hlt]
        refine List.pairwise_cons.2 ⟨?_, List.pairwise_cons.2 ⟨he, hrest⟩⟩
        intro b hb
        rcases List.mem_cons.1 hb with rfl | hb
        · exact hlt
        · exact strLtList_trans _ _ _ hlt (he b hb)
      · rw [if_neg hlt]
        by_cases heq : k = e.1
        · rw [if_pos heq]
          refine List.pairwise_cons.2 ⟨?_, hrest⟩
          intro b hb
          rw [heq]
          exact he b hb
        · rw [if_neg heq]
          refine List.pairwise_cons.2 ⟨?_, ih hrest⟩
          intro b hb
          have hbk :
              b.1 = k ∨ b.1 ∈ rest.map Prod.fst :=
            mapInsert_keys k v rest b.1 (List.mem_map_of_mem Prod.fst hb)
          have hek : strLt e.1 k = true :=
            strLt_connex k e.1 (by simpa using hlt) heq
          rcases hbk with hbk | hbk
          · rw [hbk]; exact hek
          · obtain ⟨b', hb', hb'e⟩ := List.mem_map.1 hbk
            have := he b' hb'
            rw [hb'e] at this
            exact this

/-- Vector-nesting depth, the measure of the collection loop. -/
def vecDepth : CType → Nat
  | .tVector e => vecDepth e + 1
  | _ => 0

/-- The collection loop keeps the `arrays` map sorted. -/
theorem arrayCollectLoop_sorted (orig : CType) :
    ∀ (n : Nat) (t : CType), vecDepth t ≤ n →
      ∀ m m', arrayCollectLoop orig m t = some m' →
      List.Pairwise (fun a b => strLt a.1 b.1 = true) m →
      List.Pairwise (fun a b => strLt a.1 b.1 = true) m' := by
  intro n
  induction n with
  | zero =>
      intro t ht m m' hl hm
      cases t with
      | tVector e => simp [vecDepth] at ht
      | _ =>
          rw [(Option.some.inj hl : m = m')] at hm
          exact hm
  | succ n ih =>
      intro t ht m m' hl hm
      cases t with
      | tVector e =>
          rw [arrayCollectLoop] at hl
          by_cases htr : elemTriggers e
          · rw [if_pos htr] at hl
            cases hk : genTypeInternal orig with
            | none => rw [hk] at hl; cases hl
            | some key =>
                rw [hk] at hl
                exact ih e (by simpa [vecDepth] using ht) _ m' hl
                  (mapInsert_sorted key orig m hm)
          · rw [if_neg htr] at hl
            exact ih e (by simpa [vecDepth] using ht) m m' hl hm
      | _ =>
          rw [(Option.some.inj hl : m = m')] at hm
          exact hm

/-- A successful option-valued fold preserves any invariant its step
preserves. -/
theorem optFoldl_preserve {α β : Type} (P : β → Prop) (f : β → α → Option β)
    (hf : ∀ b a b', f b a = some b' → P b → P b') :
    ∀ (l : List α) b b', optFoldl f b l = some b' → P b → P b' := by
  intro l
  induction l with
  | nil => intro b b' hb hp; rw [optFoldl] at hb; cases hb; exact hp
  | cons a as ih =>
      intro b b' hb hp
      rw [optFoldl] at hb
      cases hfa : f b a with
      | none => rw [hfa] at hb; cases hb
      | some b1 =>
          rw [hfa] at hb
          exact ih b1 b' hb (hf b a b1 hfa hp)

/-- The `arrays` map is sorted by rendered type name. -/
theorem collectArrays_sorted (p : Parser) (m : List (String × CType))
    (hm : collectArrays p = some m) :
    List.Pairwise (fun a b => strLt a.1 b.1 = true) m := by
  refine optFoldl_preserve (List.Pairwise (fun a b => strLt a.1 b.1 = true)) _
    ?_ p.structs [] m hm (List.Pairwise.nil)
  intro b sd b' hstep hb
  refine optFoldl_preserve (List.Pairwise (fun a b => strLt a.1 b.1 = true)) _
    ?_ sd.fields b b' hstep hb
  intro c f c' hloop hc
  exact arrayCollectLoop_sorted f.ty (vecDepth f.ty) f.ty le_rfl c c' hloop hc

/-- Two struct defs whose vector types are discovered in
reverse-alphabetical order. -/
def exZebra : StructDef := .mk "Zebra" [] false false false [] []

/-- Second struct for the ordering example. -/
def exAnt : StructDef := .mk "Ant" [] false false false [] []

/-- A parser whose two collected vector types are discovered in
reverse-alphabetical order. -/
def exTwoVecParser : Parser :=
  { structs := [.mk "Bag" [] false false false
      [.mk "zs" (.tVector (.tStruct exZebra)) false false [],
       .mk "as" (.tVector (.tStruct exAnt)) false false []] []],
    rootStructDef := none, currentNamespace := [], includedFiles := [] }

/-- Claim C6: generation is deterministic.  The output of `generate()` is a
function of the parser, path, file name and of the generator state that
survives the initial `Clear()` calls (the untouched swift stream and the
persistent template values); the cleared header/implementation streams do
not influence it.  The `arrays` map iterates in strictly name-sorted order,
and at a concrete parser whose vector types are discovered in
reverse-alphabetical order the map comes out name-sorted. -/
theorem generate_deterministic (p : Parser) (path fileName : String)
    (ha hb mma mmb sw : List String) (kv : KeyVals) :
    generateW p path fileName ⟨ha, mma, sw, kv⟩ =
      generateW p path fileName ⟨hb, mmb, sw, kv⟩ ∧
    (collectArrays p).elim True (fun m =>
      List.Pairwise (fun a b => strLt a.1 b.1 = true) m) ∧
    (collectArrays exTwoVecParser).map (fun m => m.map Prod.fst) =
      some ["AntArray", "ZebraArray"] := by
  refine ⟨rfl, ?_, by decide⟩
  cases hm : collectArrays p with
  | none => simp [Option.elim]
  | some m =>
      simp only [Option.elim]
      exact collectArrays_sorted p m hm

/-! ### Segment decomposition of generate() -/

/-- The chunks the declaration pass step contributes for one struct. -/
def declStepChunks (sd : StructDef) : Option (List String) :=
  if sd.generated then some [] else structDeclChunks sd

/-- The chunks the accessor pass step contributes for one struct. -/
def fieldsStepChunks (sd : StructDef) : Option (List String × List String) :=
  if sd.generated then some ([], []) else structFieldsChunks sd

/-- The chunks the builder pass step contributes for one struct. -/
def buildersStepChunks (sd : StructDef) :
    Option (List String × List String) :=
  if !sd.generated && !sd.fixed then buildersChunks sd else some ([], [])

/-- The declaration step appends exactly its chunks. -/
theorem declStep_eq (w : W) (sd : StructDef) :
    declStep w sd =
      (declStepChunks sd).map fun c => { w with h := w.h ++ c } := by
  by_cases hg : sd.generated <;>
    simp [declStep, declStepChunks, hg, genStructDecl]

/-- The accessor step appends exactly its chunks. -/
theorem fieldsStep_eq (w : W) (sd : StructDef) :
    fieldsStep w sd =
      (fieldsStepChunks sd).map fun c =>
        { w with h := w.h ++ c.1, mm := w.mm ++ c.2 } := by
  by_cases hg : sd.generated <;>
    simp [fieldsStep, fieldsStepChunks, hg, genStructFields]

/-- The builder step appends exactly its chunks. -/
theorem buildersStep_eq (w : W) (sd : StructDef) :
    buildersStep w sd =
      (buildersStepChunks sd).map fun c =>
        { w with h := w.h ++ c.1, mm := w.mm ++ c.2 } := by
  by_cases hg : (!sd.generated && !sd.fixed) = true <;>
    simp [buildersStep, buildersStepChunks, hg, genBuilders]

/-- A pass whose step appends header chunks is the appending of the
concatenated chunks. -/
theorem optFoldl_chunksH {α : Type} (f : W → α → Option W)
    (g : α → Option (List String))
    (hf : ∀ w a, f w a = (g a).map fun c => { w with h := w.h ++ c }) :
    ∀ (l : List α) (w : W),
      optFoldl f w l =
        (optChunks g l).map fun c => { w with h := w.h ++ c } := by
  intro l
  induction l with
  | nil => intro w; simp [optFoldl, optChunks]
  | cons a as ih =>
      intro w
      rw [optFoldl, hf w a, optChunks]
      cases g a with
      | none => rfl
      | some c =>
          simp only [Option.map, Option.bind]
          rw [ih]
          cases optChunks g as with
          | none => rfl
          | some cs => simp [List.append_assoc]

/-- A pass whose step appends chunks to both streams is the appending of
the concatenated chunk pairs. -/
theorem optFoldl_chunks2 {α : Type} (f : W → α → Option W)
    (g : α → Option (List String × List String))
    (hf : ∀ w a, f w a = (g a).map fun c =>
      { w with h := w.h ++ c.1, mm := w.mm ++ c.2 }) :
    ∀ (l : List α) (w : W),
      optFoldl f w l =
        (optChunks2 g l).map fun c =>
          { w with h := w.h ++ c.1, mm := w.mm ++ c.2 } := by
  intro l
  induction l with
  | nil => intro w; simp [optFoldl, optChunks2]
  | cons a as ih =>
      intro w
      rw [optFoldl, hf w a, optChunks2]
      cases g a with
      | none => rfl
      | some c =>
          simp only [Option.map, Option.bind]
          rw [ih]
          cases optChunks2 g as with
          | none => rfl
          | some cs => simp [List.append_assoc]

/-- The chunk pairs of the array-accessor pass with the template values
threaded through. -/
def optChunksK (kv : KeyVals) :
    List (String × CType) → Option (List String × List String × KeyVals)
  | [] => some ([], [], kv)
  | e :: es =>
      (arrayFieldsChunks e.2 kv).bind fun c =>
        (optChunksK c.2.2 es).map fun cs =>
          (c.1 ++ cs.1, c.2.1 ++ cs.2.1, cs.2.2)

/-- The array-accessor pass is the appending of its chunk pairs, with the
final template values installed. -/
theorem optFoldl_arrayFields :
    ∀ (l : List (String × CType)) (w : W),
      optFoldl arrayFieldsStep w l =
        (optChunksK w.kv l).map fun c =>
          { w with h := w.h ++ c.1, mm := w.mm ++ c.2.1, kv := c.2.2 } := by
  intro l
  induction l with
  | nil => intro w; simp [optFoldl, optChunksK]
  | cons e es ih =>
      intro w
      rw [optFoldl, optChunksK]
      show (genArrayFields w e.2).bind _ = _
      rw [genArrayFields]
      cases arrayFieldsChunks e.2 w.kv with
      | none => rfl
      | some c =>
          simp only [Option.map, Option.bind]
          rw [ih]
          show (optChunksK c.2.2 es).map _ = _
          cases optChunksK c.2.2 es with
          | none => rfl
          | some cs => simp [List.append_assoc]

/-- The header prologue emitted before the passes. -/
def hPreChunks (fileName : String) (comps : List String) : List String :=
  [emitChunk ("// " ++ flatBuffersGeneratedWarning ++ "\n\n"),
   emitChunk ("#ifndef " ++ genIncludeGuard fileName comps),
   emitChunk ("#define " ++ genIncludeGuard fileName comps),
   emitChunk "",
   emitChunk "#import \"flatbuffers_swift.h\"",
   emitChunk ""]

/-- The implementation prologue emitted before the passes. -/
def mmPreChunks (fileName : String) : List String :=
  [emitChunk ("// " ++ flatBuffersGeneratedWarning ++ "\n\n"),
   emitChunk ("#import \"" ++ fileName ++ "_generated.h\""),
   emitChunk ("#import \"" ++ fileName ++ "_swift_generated.h\""),
   emitChunk ""]

/-- The header epilogue. -/
def hTailChunks (fileName : String) (comps : List String) : List String :=
  [emitChunk "@end", emitChunk "",
   emitChunk ("#endif  // " ++ genIncludeGuard fileName comps)]

/-- The implementation epilogue. -/
def mmTailChunks : List String := [emitChunk "@end", emitChunk ""]

/-- The header chunks of the root-finish step. -/
def finChunksH : Option StructDef → List String
  | some sd => (finishChunks sd).1
  | none => []

/-- The implementation chunks of the root-finish step. -/
def finChunksMM : Option StructDef → List String
  | some sd => (finishChunks sd).2
  | none => []

/-- Closed form of `generate()`: the header and implementation outputs are
the concatenations of the prologues, the pass segments in declaration
order, the optional root-finish segment and the epilogues. -/
theorem generateW_eq (p : Parser) (path fileName : String) (w0 : W) :
    generateW p path fileName w0 =
      (collectArrays p).bind fun arrays =>
      (optChunks declStepChunks p.structs).bind fun dC =>
      (optChunks (fun e => arrayDeclChunks e.2) arrays).bind fun adC =>
      (optChunks2 fieldsStepChunks p.structs).bind fun fp =>
      (optChunksK w0.kv arrays).bind fun afp =>
      (optChunks2 buildersStepChunks p.structs).bind fun bC =>
      (optChunks2 (fun e => arrayBuildersChunks e.2) arrays).map fun abC =>
        let hAll := hPreChunks fileName p.currentNamespace ++ dC ++ adC ++
          fp.1 ++ afp.1 ++
          [emitChunk "@interface FlatBufferBuilder (XXX)"] ++
          bC.1 ++ abC.1 ++ finChunksH p.rootStructDef ++
          hTailChunks fileName p.currentNamespace
        let mmAll := mmPreChunks fileName ++ fp.2 ++ afp.2.1 ++
          [emitChunk "@implementation FlatBufferBuilder (XXX)",
           emitChunk ""] ++
          bC.2 ++ abC.2 ++ finChunksMM p.rootStructDef ++ mmTailChunks
        (⟨hAll, mmAll, w0.swift, afp.2.2⟩,
         [(generatedFileName path fileName "swift_generated.h",
            textOf hAll),
          (generatedFileName path fileName "swift_generated.mm",
            textOf mmAll),
          (generatedFileName path fileName "swift_generated.swift",
            textOf w0.swift)]) := by
  obtain ⟨h0, mm0, sw0, kv0⟩ := w0
  rw [generateW]
  simp only [addH, addMM]
  cases hA : collectArrays p with
  | none => rfl
  | some arrays =>
      simp only [Option.bind]
      rw [optFoldl_chunksH declStep declStepChunks declStep_eq p.structs]
      cases hd : optChunks declStepChunks p.structs with
      | none => rfl
      | some dC =>
          simp only [Option.map, Option.bind]
          rw [optFoldl_chunksH arrayDeclStep (fun e => arrayDeclChunks e.2)
            (fun w e => rfl) arrays]
          cases had : optChunks (fun e => arrayDeclChunks e.2) arrays with
          | none => rfl
          | some adC =>
              simp only [Option.map, Option.bind]
              rw [optFoldl_chunks2 fieldsStep fieldsStepChunks fieldsStep_eq
                p.structs]
              cases hfp : optChunks2 fieldsStepChunks p.structs with
              | none => rfl
              | some fp =>
                  simp only [Option.map, Option.bind]
                  rw [optFoldl_arrayFields arrays]
                  cases hafp : optChunksK kv0 arrays with
                  | none => rfl
                  | some afp =>
                      simp only [Option.map, Option.bind]
                      rw [optFoldl_chunks2 buildersStep buildersStepChunks
                        buildersStep_eq p.structs]
                      cases hbC : optChunks2 buildersStepChunks p.structs with
                      | none => rfl
                      | some bC =>
                          simp only [Option.map, Option.bind]
                          rw [optFoldl_chunks2 arrayBuildersStep
                            (fun e => arrayBuildersChunks e.2)
                            (fun w e => rfl) arrays]
                          cases habC : optChunks2
                              (fun e => arrayBuildersChunks e.2) arrays with
                          | none => rfl
                          | some abC =>
                              simp only [Option.map, Option.bind]
                              cases hr : p.rootStructDef with
                              | none =>
                                  simp [genFinish, finChunksH, finChunksMM,
                                    List.append_assoc, textOf, hPreChunks,
                                    mmPreChunks, hTailChunks, mmTailChunks]
                              | some sd =>
                                  simp [genFinish, finChunksH, finChunksMM,
                                    List.append_assoc, textOf, hPreChunks,
                                    mmPreChunks, hTailChunks, mmTailChunks]

/-- Claim C4: `generate()` visits the structs of `parser_.structs_.vec` in
declaration order in every pass (the segments below are `optChunks` folds
over `p.structs`), and the header output places the forward-declaration
segment of the non-generated structs before every field-accessor segment
and every builder segment; the concrete run shows the success case is
exercised. -/
theorem declaration_order (p : Parser) (path fileName : String) (w0 : W) :
    (generateW p path fileName w0).elim True (fun r =>
      ∃ dC adC fT afT bT abT,
        optChunks declStepChunks p.structs = some dC ∧
        optChunks2 fieldsStepChunks p.structs = some fT ∧
        optChunks2 buildersStepChunks p.structs = some bT ∧
        r.1.h = hPreChunks fileName p.currentNamespace ++ dC ++ adC ++
          fT.1 ++ afT ++
          [emitChunk "@interface FlatBufferBuilder (XXX)"] ++
          bT.1 ++ abT ++ finChunksH p.rootStructDef ++
          hTailChunks fileName p.currentNamespace) ∧
    (generateW exParser "out/" "monster" freshW).isSome = true := by
  refine ⟨?_, by decide⟩
  rw [generateW_eq]
  cases hA : collectArrays p with
  | none => exact trivial
  | some arrays =>
      simp only [Option.bind]
      cases hd : optChunks declStepChunks p.structs with
      | none => exact trivial
      | some dC =>
          cases had : optChunks (fun e => arrayDeclChunks e.2) arrays with
          | none => exact trivial
          | some adC =>
              cases hfp : optChunks2 fieldsStepChunks p.structs with
              | none => exact trivial
              | some fp =>
                  cases hafp : optChunksK w0.kv arrays with
                  | none => exact trivial
                  | some afp =>
                      cases hbC : optChunks2 buildersStepChunks p.structs with
                      | none => exact trivial
                      | some bC =>
                          cases habC : optChunks2
                              (fun e => arrayBuildersChunks e.2) arrays with
                          | none => exact trivial
                          | some abC =>
                              exact ⟨dC, adC, fp, afp.1, bC, abC.1, rfl,
                                rfl, rfl, rfl⟩

/-- Claim C10: the generated builder interface contains the root-finish
block (the `finishWith...` selector wrapping `FlatBufferBuilder::Finish`)
exactly when the parser declares a root struct.  The finish segment of the
output is `finChunksH`/`finChunksMM` of the root: empty when no root struct
is declared, and the finish selector and its implementation when one is;
every other segment of the output is pinned to root-independent data (the
struct list, the `arrays` map — itself independent of the root — and the
initial writer state).  The concrete run shows the success case is
exercised. -/
theorem finish_iff_root (p : Parser) (path fileName : String) (w0 : W)
    (root' : Option StructDef) :
    collectArrays ⟨p.structs, root', p.currentNamespace, p.includedFiles⟩ =
      collectArrays p ∧
    p.rootStructDef.elim
      (finChunksH p.rootStructDef = [] ∧ finChunksMM p.rootStructDef = [])
      (fun sd =>
        finChunksH p.rootStructDef =
          [emitChunk ("- (void)finishWith" ++ genTypeInternalDef sd ++
             ":(" ++ genTypeOffsetDef sd ++ ")offset;")] ∧
        finChunksMM p.rootStructDef =
          [emitChunk ("- (void)finishWith" ++ genTypeInternalDef sd ++
             ":(" ++ genTypeOffsetDef sd ++ ")offset \x7b"),
           emitChunk ("  _fbb->Finish(flatbuffers::Offset<" ++
             genTypeFlatbuffersDef sd ++ ">(offset.offset));"),
           emitChunk "\x7d",
           emitChunk ""]) ∧
    (generateW p path fileName w0).elim True (fun r =>
      ∃ arrays dC adC fp afp bC abC,
        collectArrays p = some arrays ∧
        optChunks declStepChunks p.structs = some dC ∧
        optChunks (fun e => arrayDeclChunks e.2) arrays = some adC ∧
        optChunks2 fieldsStepChunks p.structs = some fp ∧
        optChunksK w0.kv arrays = some afp ∧
        optChunks2 buildersStepChunks p.structs = some bC ∧
        optChunks2 (fun e => arrayBuildersChunks e.2) arrays = some abC ∧
        r.1.h = hPreChunks fileName p.currentNamespace ++ dC ++ adC ++
          fp.1 ++ afp.1 ++
          [emitChunk "@interface FlatBufferBuilder (XXX)"] ++
          bC.1 ++ abC.1 ++ finChunksH p.rootStructDef ++
          hTailChunks fileName p.currentNamespace ∧
        r.1.mm = mmPreChunks fileName ++ fp.2 ++ afp.2.1 ++
          [emitChunk "@implementation FlatBufferBuilder (XXX)",
           emitChunk ""] ++
          bC.2 ++ abC.2 ++ finChunksMM p.rootStructDef ++ mmTailChunks) ∧
    (generateW exParser "out/" "monster" freshW).map
        (fun r => r.1.mm.length) =
      some 63 := by
  refine ⟨rfl, ?_, ?_, by decide⟩
  · cases p.rootStructDef with
    | none => exact ⟨rfl, rfl⟩
    | some sd => exact ⟨rfl, rfl⟩
  · rw [generateW_eq]
    cases hA : collectArrays p with
    | none => exact trivial
    | some arrays =>
        simp only [Option.bind]
        cases hd : optChunks declStepChunks p.structs with
        | none => exact trivial
        | some dC =>
            cases had : optChunks (fun e => arrayDeclChunks e.2) arrays with
            | none => exact trivial
            | some adC =>
                cases hfp : optChunks2 fieldsStepChunks p.structs with
                | none => exact trivial
                | some fp =>
                    cases hafp : optChunksK w0.kv arrays with
                    | none => exact trivial
                    | some afp =>
                        cases hbC : optChunks2 buildersStepChunks
                            p.structs with
                        | none => exact trivial
                        | some bC =>
                            cases habC : optChunks2
                                (fun e => arrayBuildersChunks e.2)
                                arrays with
                            | none => exact trivial
                            | some abC =>
                                exact ⟨arrays, dC, adC, fp, afp, bC, abC,
                                  rfl, rfl, had, rfl, hafp, rfl, habC, rfl,
                                  rfl⟩

/-- A deprecated field for exercising the deprecation asymmetry. -/
def exDeprField : FieldDef := .mk "old" .tShort true false []

/-- A table with a deprecated field. -/
def exDeprStruct : StructDef :=
  .mk "Monster" [] false false false
    [.mk "hp" .tInt false false [], exDeprField] []

/-- Witness for C9 at a concrete table with a deprecated field. -/
theorem deprecated_asymmetry_witness :
    genCreateSelector exDeprStruct =
      createSelectorFold
        ("make" ++ genTypeInternalDef exDeprStruct ++ "With") true
        (exDeprStruct.fields.filter (fun g => !g.deprecated)) ∧
    buildersCastChunks exDeprField = some [] ∧
    buildersTempChunks exDeprField = [] ∧
    (genStructFields freshW exDeprStruct).elim True (fun w' =>
      ∃ cs : List (List String × List String),
        List.Forall₂
          (fun g c => structFieldsFieldChunks exDeprStruct g = some c ∧
            c.1 ≠ [] ∧ c.2 ≠ [])
          exDeprStruct.fields cs ∧
        w'.h = freshW.h ++ (cs.map Prod.fst).flatten ++ [emitChunk ""] ∧
        w'.mm = freshW.mm ++ (cs.map Prod.snd).flatten) :=
  deprecated_asymmetry exDeprStruct freshW exDeprField rfl

end SwiftGen

namespace BufModel

/-! ### Buffer Builder / Reader

Modelled from the spec: the Buffer Builder and Buffer Reader runtime
(spec sections 4.2 and 4.3) is not part of the source excerpt.  Per the
spec, the builder constructs a single contiguous byte buffer backward
(highest offsets first) so nested offsets are known before their parent is
written; vectors and strings are length-prefixed with an unsigned 32-bit
count immediately preceding the element/byte data; `finish` writes a
4-byte root offset at buffer start; an offset is an unsigned integer
locating a sub-object relative to the buffer.  Bytes are naturals below
256; scalars are modelled at the 32-bit width; an offset is the distance
of the sub-object's first byte from the buffer end, which is stable under
backward growth. -/

mutual

/-- The data tree a buffer is built from: scalars, strings (byte lists)
and vectors of sub-objects. -/
inductive Tree where
  | scalar (v : Nat)
  | str (s : List Nat)
  | vec (ts : TreeList)

/-- A list of sibling sub-objects. -/
inductive TreeList where
  | nil
  | cons (t : Tree) (ts : TreeList)

end

/-- The schema shape directing a zero-copy read: scalar, string, or a
homogeneous vector of a shape. -/
inductive Shape where
  | sc
  | st
  | vec (e : Shape)

/-- Little-endian 32-bit encoding. -/
def le32 (n : Nat) : List Nat :=
  [n % 256, n / 256 % 256, n / 65536 % 256, n / 16777216 % 256]

/-- Little-endian 32-bit decoding of the first four bytes. -/
def dec32 (l : List Nat) : Nat :=
  l.getD 0 0 + 256 * l.getD 1 0 + 65536 * l.getD 2 0 +
    16777216 * l.getD 3 0

/-- The `push_scalar`: prepend the 32-bit scalar; the returned offset is the
distance of the object from the buffer end. -/
def pushScalar (buf : List Nat) (v : Nat) : List Nat × Nat :=
  (le32 v ++ buf, (le32 v ++ buf).length)

/-- The `create_string`: length-prefixed byte data, truncated to bytes. -/
def createString (buf : List Nat) (s : List Nat) : List Nat × Nat :=
  ((le32 s.length ++ s.map (fun b => b % 256)) ++ buf,
   ((le32 s.length ++ s.map (fun b => b % 256)) ++ buf).length)

/-- The `create_vector`: length-prefixed vector of 32-bit element offsets. -/
def createVector (buf : List Nat) (offs : List Nat) : List Nat × Nat :=
  ((le32 offs.length ++ (offs.map le32).flatten) ++ buf,
   ((le32 offs.length ++ (offs.map le32).flatten) ++ buf).length)

/-- The `finish`: write the 4-byte root offset at buffer start. -/
def finishB (buf : List Nat) (root : Nat) : List Nat := le32 root ++ buf

mutual

/-- Serialize a tree into the buffer (built backward), returning the new
buffer and the offset of the tree's root object. -/
def buildTree (buf : List Nat) : Tree → List Nat × Nat
  | .scalar v => pushScalar buf v
  | .str s => createString buf s
  | .vec ts =>
      let p := buildList buf ts
      createVector p.1 p.2

/-- Serialize sibling sub-objects left to right, returning their offsets
in order. -/
def buildList (buf : List Nat) : TreeList → List Nat × List Nat
  | .nil => (buf, [])
  | .cons t ts =>
      let p := buildTree buf t
      let q := buildList p.1 ts
      (q.1, p.2 :: q.2)

end

/-- The bytes of the sub-object at distance `pos` from the buffer end. -/
def readAt (buf : List Nat) (pos : Nat) : List Nat :=
  buf.drop (buf.length - pos)

/-- The `root()`: the root offset stored in the first four bytes. -/
def rootPos (buf : List Nat) : Nat := dec32 buf

/-- The `vector_length`: the stored 32-bit element count. -/
def vectorLenAt (buf : List Nat) (pos : Nat) : Nat := dec32 (readAt buf pos)

/-- The stored offset of vector element `i`. -/
def vectorEntryAt (buf : List Nat) (pos i : Nat) : Nat :=
  dec32 ((readAt buf pos).drop (4 + 4 * i))

/-- Read a 32-bit scalar. -/
def readScalarAt (buf : List Nat) (pos : Nat) : Nat := dec32 (readAt buf pos)

/-- Read a length-prefixed string. -/
def readStringAt (buf : List Nat) (pos : Nat) : List Nat :=
  ((readAt buf pos).drop 4).take (dec32 (readAt buf pos))

mutual

/-- Zero-copy, shape-directed read of the object at `pos`. -/
def readTree (buf : List Nat) : Shape → Nat → Tree
  | .sc, pos => .scalar (readScalarAt buf pos)
  | .st, pos => .str (readStringAt buf pos)
  | .vec e, pos => .vec (readElems buf e pos (vectorLenAt buf pos) 0)
termination_by sh _ => (sizeOf sh, 0)

/-- Read `n` vector elements starting at element index `i`, each through
its stored offset. -/
def readElems (buf : List Nat) (e : Shape) (pos : Nat) :
    Nat → Nat → TreeList
  | 0, _ => .nil
  | n + 1, i =>
      .cons (readTree buf e (vectorEntryAt buf pos i))
        (readElems buf e pos n (i + 1))
termination_by n _ => (sizeOf e, n + 1)

end

mutual

/-- A tree fits a shape, its scalars fit 32 bits and its string bytes fit
a byte. -/
def hasShape : Tree → Shape → Bool
  | .scalar v, .sc => decide (v < 4294967296)
  | .str s, .st => s.all (fun b => decide (b < 256))
  | .vec ts, .vec e => hasShapeList ts e
  | _, _ => false

/-- All siblings fit the element shape. -/
def hasShapeList : TreeList → Shape → Bool
  | .nil, _ => true
  | .cons t ts, e => hasShape t e && hasShapeList ts e

end

/-- Reading a `TreeList` through a list of stored offsets. -/
def readOffList (buf : List Nat) (e : Shape) : List Nat → TreeList
  | [] => .nil
  | o :: os => .cons (readTree buf e o) (readOffList buf e os)

/-- Decoding inverts the 32-bit encoding below `2^32`. -/
theorem dec32_le32 (n : Nat) (h : n < 4294967296) (rest : List Nat) :
    dec32 (le32 n ++ rest) = n := by
  simp only [le32, dec32, List.cons_append, List.nil_append,
    List.getD_cons_zero, List.getD_cons_succ]
  omega

/-- Sub-objects already in the buffer are unaffected by backward growth. -/
theorem readAt_append (x buf : List Nat) (pos : Nat)
    (h : pos ≤ buf.length) : readAt (x ++ buf) pos = readAt buf pos := by
  unfold readAt
  rw [List.length_append,
    show x.length + buf.length - pos = x.length + (buf.length - pos) by
      omega]
  rw [List.drop_append]

/-- Reading a whole suffix. -/
theorem readAt_self (x buf : List Nat) : readAt (x ++ buf) buf.length = buf := by
  rw [readAt_append x buf buf.length le_rfl]
  unfold readAt
  simp

/-- The byte length of a vector's entry block. -/
theorem flatten_le32_length (offs : List Nat) :
    ((offs.map le32).flatten).length = 4 * offs.length := by
  induction offs with
  | nil => simp
  | cons o os ih => simp [le32, ih]; omega

/-- Dropping to entry `j` of a vector's entry block exposes the encoded
offset of element `j`. -/
theorem flatten_drop_le32 : ∀ (offs : List Nat) (j : Nat),
    j < offs.length →
    ((offs.map le32).flatten).drop (4 * j) =
      le32 (offs.getD j 0) ++ ((offs.drop (j + 1)).map le32).flatten := by
  intro offs
  induction offs with
  | nil => intro j hj; simp at hj
  | cons o os ih =>
      intro j hj
      cases j with
      | zero => simp
      | succ j' =>
          simp only [List.map_cons, List.flatten_cons]
          rw [show 4 * (j' + 1) = (le32 o).length + 4 * j' by simp [le32]; omega,
            List.drop_append]
          have hj' : j' < os.length := by simpa using hj
          rw [ih j' hj']
          simp

/-- Element-wise reading agrees with offset-list reading when the stored
entries decode to the offsets. -/
theorem readElems_eq_offList (B : List Nat) (e : Shape) (pos : Nat) :
    ∀ (rem : List Nat) (i : Nat),
      (∀ j, j < rem.length → vectorEntryAt B pos (i + j) = rem.getD j 0) →
      readElems B e pos rem.length i = readOffList B e rem := by
  intro rem
  induction rem with
  | nil => intro i _; rw [List.length_nil, readElems, readOffList]
  | cons o os ih =>
      intro i h
      rw [List.length_cons, readElems, readOffList]
      have h0 : vectorEntryAt B pos i = o := by
        have := h 0 (by simp)
        simpa using this
      rw [h0]
      refine congrArg (TreeList.cons (readTree B e o)) ?_
      refine ih (i + 1) ?_
      intro j hj
      have := h (j + 1) (by simpa using Nat.succ_lt_succ hj)
      rw [show i + (j + 1) = i + 1 + j by omega] at this
      simpa using this

mutual

/-- Building appends to the buffer, returns the object's offset, and the
object reads back to the original tree from any backward extension of the
buffer that keeps every offset below `2^32`. -/
theorem buildTree_spec (t : Tree) : ∀ (sh : Shape),
    hasShape t sh = true → ∀ buf : List Nat,
    (∃ pre, (buildTree buf t).1 = pre ++ buf) ∧
    (buildTree buf t).2 = (buildTree buf t).1.length ∧
    (∀ ext : List Nat,
      ext.length + (buildTree buf t).1.length < 4294967296 →
      readTree (ext ++ (buildTree buf t).1) sh (buildTree buf t).2 = t) := by
  cases t with
  | scalar v =>
      intro sh hsh buf
      cases sh with
      | st => simp [hasShape] at hsh
      | vec e => simp [hasShape] at hsh
      | sc =>
          have hv : v < 4294967296 := by simpa [hasShape] using hsh
          refine ⟨⟨le32 v, rfl⟩, rfl, ?_⟩
          intro ext hbnd
          rw [readTree]
          unfold readScalarAt
          rw [show (buildTree buf (Tree.scalar v)).1 = le32 v ++ buf
              from rfl,
            show (buildTree buf (Tree.scalar v)).2 =
              (le32 v ++ buf).length from rfl,
            readAt_self, dec32_le32 v hv buf]
  | str s =>
      intro sh hsh buf
      cases sh with
      | sc => simp [hasShape] at hsh
      | vec e => simp [hasShape] at hsh
      | st =>
          have hb : ∀ b ∈ s, b < 256 := by
            simpa [hasShape, List.all_eq_true] using hsh
          have hmap : s.map (fun b => b % 256) = s := by
            have h1 : ∀ b ∈ s, b % 256 = b := fun b hb' =>
              Nat.mod_eq_of_lt (hb b hb')
            calc s.map (fun b => b % 256) = s.map id :=
                  List.map_congr_left h1
              _ = s := List.map_id s
          refine ⟨⟨le32 s.length ++ s.map (fun b => b % 256), rfl⟩, rfl, ?_⟩
          intro ext hbnd
          rw [readTree]
          unfold readStringAt
          rw [show (buildTree buf (Tree.str s)).1 =
              (le32 s.length ++ s.map (fun b => b % 256)) ++ buf from rfl,
            show (buildTree buf (Tree.str s)).2 =
              ((le32 s.length ++ s.map (fun b => b % 256)) ++ buf).length
              from rfl,
            readAt_self]
          have hsl : s.length < 4294967296 := by
            rw [show (buildTree buf (Tree.str s)).1 =
              (le32 s.length ++ s.map (fun b => b % 256)) ++ buf from rfl]
              at hbnd
            simp [le32] at hbnd
            omega
          rw [List.append_assoc, dec32_le32 s.length hsl _]
          refine congrArg Tree.str ?_
          have hdrop :
              (le32 s.length ++ (s.map (fun b => b % 256) ++ buf)).drop 4 =
                s.map (fun b => b % 256) ++ buf := by
            simp [le32]
          rw [hdrop, ← List.length_map s (fun b => b % 256), List.take_left,
            hmap]
  | vec ts =>
      intro sh hsh buf
      cases sh with
      | sc => simp [hasShape] at hsh
      | st => simp [hasShape] at hsh
      | vec e =>
          have hts : hasShapeList ts e = true := by
            simpa [hasShape] using hsh
          obtain ⟨⟨preP, hpre⟩, hoff, hread⟩ := buildList_spec ts e hts buf
          rcases hq : buildList buf ts with ⟨buf1, offs⟩
          simp only [hq] at hpre hoff hread
          have hbt : buildTree buf (Tree.vec ts) =
              ((le32 offs.length ++ (offs.map le32).flatten) ++ buf1,
               ((le32 offs.length ++ (offs.map le32).flatten) ++
                 buf1).length) := by
            rw [buildTree, hq]; rfl
          rw [hbt]
          have hflat : ((offs.map le32).flatten).length = 4 * offs.length :=
            flatten_le32_length offs
          refine ⟨⟨le32 offs.length ++ (offs.map le32).flatten ++ preP,
            by rw [hpre]; simp [List.append_assoc]⟩, rfl, ?_⟩
          intro ext hbnd
          simp only [le32, List.length_append, List.length_cons,
            List.length_nil, hflat] at hbnd
          rw [readTree]
          refine congrArg Tree.vec ?_
          have hn : vectorLenAt
              (ext ++ ((le32 offs.length ++ (offs.map le32).flatten) ++
                buf1))
              ((le32 offs.length ++ (offs.map le32).flatten) ++
                buf1).length = offs.length := by
            unfold vectorLenAt
            rw [readAt_self, List.append_assoc]
            exact dec32_le32 offs.length (by omega) _
          rw [hn]
          have hentries : ∀ j, j < offs.length →
              vectorEntryAt
                (ext ++ ((le32 offs.length ++ (offs.map le32).flatten) ++
                  buf1))
                ((le32 offs.length ++ (offs.map le32).flatten) ++
                  buf1).length (0 + j) = offs.getD j 0 := by
            intro j hj
            unfold vectorEntryAt
            rw [readAt_self, List.append_assoc]
            rw [show 4 + 4 * (0 + j) = (le32 offs.length).length + 4 * j by
              simp only [le32, List.length_cons, List.length_nil]; omega,
              List.drop_append]
            rw [List.drop_append_eq_append_drop,
              flatten_drop_le32 offs j hj,
              show 4 * j - ((offs.map le32).flatten).length = 0 by omega,
              List.drop_zero, List.append_assoc]
            have hgd : offs.getD j 0 < 4294967296 := by
              have hmem : offs.getD j 0 ∈ offs := by
                rw [List.getD_eq_getElem offs 0 hj]
                exact List.getElem_mem hj
              have := hoff (offs.getD j 0) hmem
              omega
            exact dec32_le32 (offs.getD j 0) hgd _
          rw [readElems_eq_offList _ e _ offs 0 hentries]
          have := hread (ext ++ (le32 offs.length ++
            (offs.map le32).flatten))
            (by
              simp only [le32, List.length_append, List.length_cons,
                List.length_nil, hflat]
              omega)
          rw [List.append_assoc] at this
          exact this

/-- Sibling serialization appends to the buffer, every returned offset is
within the grown buffer, and the offsets read back to the original
siblings from any backward extension within the offset bound. -/
theorem buildList_spec (ts : TreeList) : ∀ (e : Shape),
    hasShapeList ts e = true → ∀ buf : List Nat,
    (∃ pre, (buildList buf ts).1 = pre ++ buf) ∧
    (∀ o ∈ (buildList buf ts).2, o ≤ (buildList buf ts).1.length) ∧
    (∀ ext : List Nat,
      ext.length + (buildList buf ts).1.length < 4294967296 →
      readOffList (ext ++ (buildList buf ts).1) e (buildList buf ts).2 =
        ts) := by
  cases ts with
  | nil =>
      intro e _ buf
      exact ⟨⟨[], rfl⟩, by intro o ho; simp [buildList] at ho,
        fun ext _ => rfl⟩
  | cons t ts' =>
      intro e hsh buf
      have ht : hasShape t e = true ∧ hasShapeList ts' e = true := by
        simpa [hasShapeList, Bool.and_eq_true] using hsh
      obtain ⟨⟨preA, hpreA⟩, hposA, hreadA⟩ := buildTree_spec t e ht.1 buf
      rcases hqA : buildTree buf t with ⟨bufA, oA⟩
      simp only [hqA] at hpreA hposA hreadA
      obtain ⟨⟨preB, hpreB⟩, hoffB, hreadB⟩ :=
        buildList_spec ts' e ht.2 bufA
      rcases hqB : buildList bufA ts' with ⟨bufB, offsB⟩
      simp only [hqB] at hpreB hoffB hreadB
      have hbl : buildList buf (TreeList.cons t ts') = (bufB, oA :: offsB) := by
        rw [buildList, hqA, hqB]
      rw [hbl]
      refine ⟨⟨preB ++ preA, by rw [hpreB, hpreA, List.append_assoc]⟩,
        ?_, ?_⟩
      · intro o ho
        rcases List.mem_cons.1 ho with rfl | ho
        · rw [hposA, hpreB, List.length_append]
          omega
        · exact hoffB o ho
      · intro ext hbnd
        rw [readOffList]
        have h2 : readOffList (ext ++ bufB) e offsB = ts' :=
          hreadB ext hbnd
        have h1 : readTree (ext ++ bufB) e oA = t := by
          have hb : (ext ++ preB).length + bufA.length < 4294967296 := by
            rw [hpreB, List.length_append] at hbnd
            rw [List.length_append]
            omega
          have := hreadA (ext ++ preB) hb
          rw [List.append_assoc, ← hpreB] at this
          exact this
        rw [h1, h2]

end

/-- The number of siblings. -/
def tlength : TreeList → Nat
  | .nil => 0
  | .cons _ ts => tlength ts + 1

/-- Element-wise reading returns as many elements as requested. -/
theorem tlength_readElems (B : List Nat) (e : Shape) (pos : Nat) :
    ∀ (n i : Nat), tlength (readElems B e pos n i) = n := by
  intro n
  induction n with
  | zero => intro i; rw [readElems, tlength]
  | succ n ih => intro i; rw [readElems, tlength, ih]

/-- Claim C8: round-trip fidelity of serialization.  For a tree fitting a
schema shape (scalars 32-bit, string bytes below 256, vectors homogeneous)
whose finished buffer keeps every offset below `2^32`, reading the
finished buffer from its stored root offset reproduces the tree exactly —
every scalar value, string content, and vector length and element order —
and the vector-length accessor at the root returns the original element
count. -/
theorem buffer_round_trip (t : Tree) (sh : Shape) (buf : List Nat)
    (hsh : hasShape t sh = true)
    (hlen : (buildTree buf t).1.length + 4 < 4294967296) :
    readTree (finishB (buildTree buf t).1 (buildTree buf t).2) sh
      (rootPos (finishB (buildTree buf t).1 (buildTree buf t).2)) = t ∧
    (∀ e ts, sh = Shape.vec e → t = Tree.vec ts →
      vectorLenAt (finishB (buildTree buf t).1 (buildTree buf t).2)
        (rootPos (finishB (buildTree buf t).1 (buildTree buf t).2)) =
        tlength ts) := by
  obtain ⟨⟨pre, hpre⟩, hpos, hread⟩ := buildTree_spec t sh hsh buf
  have hpos' : (buildTree buf t).2 < 4294967296 := by
    rw [hpos]; omega
  have hroot :
      rootPos (finishB (buildTree buf t).1 (buildTree buf t).2) =
        (buildTree buf t).2 := by
    unfold rootPos finishB
    exact dec32_le32 _ hpos' _
  have hmain :
      readTree (finishB (buildTree buf t).1 (buildTree buf t).2) sh
        (rootPos (finishB (buildTree buf t).1 (buildTree buf t).2)) = t := by
    rw [hroot]
    unfold finishB
    exact hread (le32 (buildTree buf t).2) (by simp [le32]; omega)
  refine ⟨hmain, ?_⟩
  rintro e ts rfl rfl
  rw [readTree] at hmain
  have hinj := Tree.vec.inj hmain
  have := tlength_readElems
    (finishB (buildTree buf (Tree.vec ts)).1 (buildTree buf (Tree.vec ts)).2)
    e
    (rootPos (finishB (buildTree buf (Tree.vec ts)).1
      (buildTree buf (Tree.vec ts)).2))
    (vectorLenAt (finishB (buildTree buf (Tree.vec ts)).1
        (buildTree buf (Tree.vec ts)).2)
      (rootPos (finishB (buildTree buf (Tree.vec ts)).1
        (buildTree buf (Tree.vec ts)).2)))
    0
  rw [hinj] at this
  exact this.symm

/-- A concrete tree: a vector of two strings. -/
def exTree : Tree :=
  Tree.vec (.cons (.str [79, 114, 99]) (.cons (.str [88, 89]) .nil))

/-- Its shape. -/
def exShape : Shape := Shape.vec Shape.st

/-- Witness for C8 at the concrete two-string vector built into an empty
buffer. -/
theorem buffer_round_trip_witness :
    hasShape exTree exShape = true ∧
    (buildTree [] exTree).1.length + 4 < 4294967296 ∧
    readTree (finishB (buildTree [] exTree).1 (buildTree [] exTree).2)
      exShape
      (rootPos (finishB (buildTree [] exTree).1 (buildTree [] exTree).2)) =
      exTree :=
  ⟨by decide, by decide,
    (buffer_round_trip exTree exShape [] (by decide) (by decide)).1⟩

end BufModel
